import Mathlib

/-!
Verification development for the solgo AST construction and type-resolution
front end.  The Go sources embedded here are `ast/expression_statement.go`
(the expression-statement dispatcher and `PrimaryExpression.Parse`) and the
`TypeName` translator family (`parseTypeName`, `parseElementaryTypeName`,
`parseIdentifierPath`, `parseMappingTypeName`, `generateTypeName`,
`TypeName.Parse`).

Modelling conventions:
* Go pointers that may be nil are `Option`; a nil-pointer dereference or an
  explicit `panic` is modelled by returning `Except.error` with a `GoPanic`
  tag, so translation results live in `Except GoPanic α`.
* Go `int`/`int64` arithmetic is modelled over `Int` (no overflow occurs in
  the span arithmetic for realistic inputs); `strconv.Atoi` is modelled
  including its 64-bit clamping behaviour.
* The parse tree (ANTLR contexts) is external input; contexts are modelled as
  plain data carrying exactly the accessors the translators read (`GetText`,
  the per-production child accessors, and the start/stop token extents), per
  the spec's external-interface section.
* The external `Resolver` capability and the `normalizeTypeDescription`
  helper (defined outside the embedded files) are taken as parameters.
-/

/-- Canonical type description: machine identifier plus display string
(`TypeDescription` in the source). -/
structure TypeDescription where
  typeIdentifier : String
  typeString : String
deriving DecidableEq, Repr

/-- Start/stop token extents of a parse-tree production: start-token line and
column, start-token start offset, stop-token stop offset. -/
structure CtxSpan where
  line : Nat
  column : Nat
  startOff : Nat
  stopOff : Nat
deriving DecidableEq, Repr

/-- Source node (`SrcNode` in the source): id, line, column, absolute start
and end offsets, derived length, and the id of the enclosing node. -/
structure SrcNode where
  id : Int
  line : Int
  column : Int
  startPos : Int
  endPos : Int
  length : Int
  parentIndex : Int
deriving DecidableEq, Repr

/-- Builds a `SrcNode` exactly the way every translator does:
`Start`/`End` from the start/stop tokens and
`Length = stop - start + 1`. -/
def mkSrcNode (id : Int) (sp : CtxSpan) (parentIndex : Int) : SrcNode :=
  { id := id
    line := (sp.line : Int)
    column := (sp.column : Int)
    startPos := (sp.startOff : Int)
    endPos := (sp.stopOff : Int)
    length := (sp.stopOff : Int) - (sp.startOff : Int) + 1
    parentIndex := parentIndex }

/-- The node-kind tags (`ast_pb.NodeType`) used by the embedded translators.
`UNSPECIFIED` is the protobuf zero value. -/
inductive NodeType where
  | UNSPECIFIED
  | IDENTIFIER
  | LITERAL
  | PLACEHOLDER_STATEMENT
  | BOOLEAN
  | STRING
  | NUMBER
  | HEX_STRING
  | VARIABLE_DECLARATION
  | ELEMENTARY_TYPE_NAME
  | MAPPING_TYPE_NAME
  | USER_DEFINED_PATH_NAME
  | IDENTIFIER_PATH
deriving DecidableEq, Repr

/-- Mutability tags (`ast_pb.Mutability`); zero value first. -/
inductive Mutability where
  | UNSPECIFIED
  | NONPAYABLE
  | PAYABLE
deriving DecidableEq, Repr

/-- The ways the embedded Go code aborts: the two explicit `panic` calls with
formatted messages, and runtime nil-pointer dereferences. -/
inductive GoPanic where
  | unsupportedFunctionType
  | unknownTypeNameChild
  | unknownExpressionChild
  | nilDeref
deriving DecidableEq, Repr

/- ### String helpers mirroring the Go standard-library calls -/

/-- `strings.ReplaceAll(s, quoteMark, emptyString)`: drops every double-quote
character. -/
def stripQuotes (s : String) : String :=
  String.mk (s.data.filter (fun c => c ≠ '"'))

/-- Helper for `trimSpace`: drop trailing whitespace characters. -/
def dropTrailingWs (l : List Char) : List Char :=
  (l.reverse.dropWhile Char.isWhitespace).reverse

/-- `strings.TrimSpace` (ASCII whitespace suffices for the lexemes the
grammar produces). -/
def trimSpace (s : String) : String :=
  String.mk (dropTrailingWs (s.data.dropWhile Char.isWhitespace))

/-- Lower-case hex digit for a value below 16. -/
def hexDigitChar (n : Nat) : Char :=
  if n < 10 then Char.ofNat (48 + n) else Char.ofNat (87 + n)

/-- Two-digit lower-case hex rendering of one byte. -/
def byteHex (b : Nat) : List Char :=
  [hexDigitChar (b / 16), hexDigitChar (b % 16)]

/-- `hex.EncodeToString([]byte(s))`: lower-case hex of the UTF-8 bytes. -/
def hexEncode (s : String) : String :=
  String.mk (((s.toUTF8.toList.map UInt8.toNat).map byteHex).flatten)

/-- `strings.Split(s, dot)` on the character list: splits at every dot,
keeping empty segments, always producing at least one segment. -/
def splitDotChars : List Char → List (List Char)
  | [] => [[]]
  | '.' :: rest => [] :: splitDotChars rest
  | c :: rest =>
    match splitDotChars rest with
    | h :: t => (c :: h) :: t
    | [] => [[c]]

/-- Numeric value of a digit list (most significant first). -/
def digitsVal (l : List Char) : Nat :=
  l.foldl (fun a c => a * 10 + (c.toNat - 48)) 0

/-- Largest 64-bit signed integer (Go `int` on 64-bit targets). -/
def int64Max : Int := 9223372036854775807

/-- Sign handling of `strconv.ParseInt`: strip one leading sign. -/
def goSign : List Char → Bool × List Char
  | '-' :: rest => (true, rest)
  | '+' :: rest => (false, rest)
  | l => (false, l)

/-- `strconv.Atoi` with the error discarded, exactly as the caller does:
0 on a syntax error, the clamped extreme value on a range error, the parsed
value otherwise (64-bit `int`). -/
def goAtoi (s : String) : Int :=
  let sd := goSign s.data
  if sd.2.isEmpty ∨ ¬ sd.2.all Char.isDigit then 0
  else
    let n : Int := (digitsVal sd.2 : Int)
    if sd.1 then max (-n) (-int64Max - 1) else min n int64Max

/-- Models `int(math.Pow(10, float64 n))`.  For `n ≤ 18` the float
computation is exact and the conversion in range, so the result is the exact
power; theorems about the rational encoding carry that bound. -/
def powTenInt (n : Nat) : Int := (10 : Int) ^ n

/- ### Context data consumed by `PrimaryExpression.Parse` -/

/-- A literal production (`LiteralContext`): the four sub-literal accessors,
each yielding the token text when present. -/
structure LiteralContext where
  booleanLiteral : Option String
  stringLiteral : Option String
  numberLiteral : Option String
  hexStringLiteral : Option String
deriving DecidableEq, Repr

/-- A primary-expression production (`PrimaryExpressionContext`):
`GetText`, the `Identifier()` accessor, the `Literal()` accessor and the
token extents. -/
structure PrimaryExpressionContext where
  text : String
  identifier : Option String
  literal : Option LiteralContext
  span : CtxSpan
deriving DecidableEq, Repr

/-- An already-built function/constructor parameter node as the translator
reads it: `GetName`, and `GetTypeName` (nil-able) followed by
`GetTypeDescription` (nil-able).  `id` is the parameter node's own id
(present on every node; this translator never reads it). -/
structure Parameter where
  id : Int
  name : String
  typeName : Option (Option TypeDescription)
deriving DecidableEq, Repr

/-- One declaration inside a variable-declaration statement: `GetName`, and
`GetTypeName` (nil-able) followed by `GetTypeDescription` (nil-able). -/
structure Declaration where
  name : String
  typeName : Option (Option TypeDescription)
deriving DecidableEq, Repr

/-- A variable-declaration statement node: its id and its declarations. -/
structure VariableDeclarationStmt where
  id : Int
  declarations : List Declaration
deriving DecidableEq, Repr

/-- A statement in the enclosing body as the scan sees it: either a
variable-declaration statement or anything else (skipped). -/
inductive Statement where
  | varDecl (v : VariableDeclarationStmt)
  | other
deriving DecidableEq, Repr

/-- The enclosing body node: `GetId` and `GetStatements`. -/
structure BodyNode where
  id : Int
  statements : List Statement
deriving DecidableEq, Repr

/-- The enclosing function-ish node: a constructor (parameter list read
directly) or a function (whose `GetParameters()` may be nil), or any other
node kind (ignored by the scans). -/
inductive FnNode where
  | ctorFn (params : List Parameter)
  | funcFn (params : Option (List Parameter))
  | otherFn
deriving DecidableEq, Repr

/-- The enclosing expression node: id, whether it is a `FunctionCall`
(argument types are then copied), its arguments' type descriptions, and its
own type description. -/
structure ExpNode where
  id : Int
  isFunctionCall : Bool
  argumentTds : List (Option TypeDescription)
  td : Option TypeDescription
deriving DecidableEq, Repr

/-- The external resolver capability: name to resolved declaration id and
type description (`ResolveByNode` with a non-nil result, keyed by the
name the translators pass). -/
abbrev Resolver := String → Option (Int × Option TypeDescription)

/-- The `PrimaryExpression` node as built by `Parse`. -/
structure PrimaryExpression where
  id : Int
  nodeType : NodeType
  kind : NodeType
  value : String
  hexValue : String
  src : SrcNode
  name : String
  typeDescription : Option TypeDescription
  referencedDeclaration : Int
  isPure : Bool
  argumentTypes : List (Option TypeDescription)
deriving DecidableEq, Repr

/-- Fixed message-context type description. -/
def magicMsgTd : TypeDescription := ⟨"t_magic_message", "msg"⟩

/-- Fixed block-context type description. -/
def magicBlockTd : TypeDescription := ⟨"t_magic_block", "block"⟩

/-- First declaration with the given name inside one statement (the inner
loop of the body scan breaks at the first match). -/
def findDecl (nm : String) : List Declaration → Option Declaration
  | [] => none
  | d :: ds => if d.name = nm then some d else findDecl nm ds

/-- The parameter loop: at the first name match, if the parameter has a
TypeName the node takes its type description and records the expression's
own id, then breaks; a match without a TypeName breaks with no change. -/
def paramScan (pid : Int) (nm : String) (acc : Option TypeDescription × Int) :
    List Parameter → Option TypeDescription × Int
  | [] => acc
  | prm :: rest =>
    if prm.name = nm then
      match prm.typeName with
      | some tn => (tn, pid)
      | none => acc
    else paramScan pid nm acc rest

/-- The body scan: every variable-declaration statement whose declarations
contain the name overwrites the accumulated type description and recorded id
(so the last matching statement wins); reading the type description of a
declaration with a nil TypeName dereferences nil. -/
def bodyScanE (nm : String) (acc : Option TypeDescription × Int) :
    List Statement → Except GoPanic (Option TypeDescription × Int)
  | [] => pure acc
  | Statement.varDecl v :: rest =>
    match findDecl nm v.declarations with
    | some d =>
      match d.typeName with
      | some tn => bodyScanE nm (tn, v.id) rest
      | none => throw GoPanic.nilDeref
    | none => bodyScanE nm acc rest
  | Statement.other :: rest => bodyScanE nm acc rest

/-- The three magic-identifier checks at the top of `Parse`: `msg`, `block`
and `this` (the last takes the enclosing source unit's type description). -/
def magicStage (unitTd : Option TypeDescription) (txt : String)
    (p : PrimaryExpression) : PrimaryExpression :=
  let p1 := if txt = "msg" then { p with typeDescription := some magicMsgTd } else p
  let p2 := if txt = "block" then { p1 with typeDescription := some magicBlockTd } else p1
  if txt = "this" then { p2 with typeDescription := unitTd } else p2

/-- Copying the argument type descriptions from an enclosing function-call
expression node. -/
def argsStage (expNode : Option ExpNode) (p : PrimaryExpression) : PrimaryExpression :=
  match expNode with
  | some e => if e.isFunctionCall then { p with argumentTypes := e.argumentTds } else p
  | none => p

/-- The trailing part of the identifier block: the body-local scan (which
may dereference nil) followed by the resolver fallback when no type
description was attached. -/
def identTail (bodyNode : Option BodyNode) (resolve : Resolver) (nm : String)
    (pb : PrimaryExpression) : Except GoPanic PrimaryExpression := do
  let pc ←
    match bodyNode with
    | none => pure pb
    | some b => do
      let (tdr, rdr) ← bodyScanE nm (pb.typeDescription, pb.referencedDeclaration)
        b.statements
      pure { pb with typeDescription := tdr, referencedDeclaration := rdr }
  match pc.typeDescription with
  | none =>
    match resolve nm with
    | some rr => pure { pc with referencedDeclaration := rr.1, typeDescription := rr.2 }
    | none => pure pc
  | some _ => pure pc

/-- The identifier block of `Parse`: name capture, the parameter scan, and
the trailing body-local scan and resolver fallback. -/
def identStage (pid : Int) (fnNode : Option FnNode) (bodyNode : Option BodyNode)
    (resolve : Resolver) (ident : Option String) (p : PrimaryExpression) :
    Except GoPanic PrimaryExpression := do
  match ident with
  | none => pure p
  | some nm => do
    let pa := { p with name := nm }
    let pb :=
      match fnNode with
      | some (FnNode.ctorFn params) =>
        let r := paramScan pid nm (pa.typeDescription, pa.referencedDeclaration) params
        { pa with typeDescription := r.1, referencedDeclaration := r.2 }
      | some (FnNode.funcFn (some params)) =>
        let r := paramScan pid nm (pa.typeDescription, pa.referencedDeclaration) params
        { pa with typeDescription := r.1, referencedDeclaration := r.2 }
      | _ => pa
    identTail bodyNode resolve nm pb

/-- The placeholder short-circuit and the literal block of `Parse`. -/
def literalStage (txt : String) (lit : Option LiteralContext)
    (expNode : Option ExpNode) (p5 : PrimaryExpression) :
    Except GoPanic PrimaryExpression := do
  if p5.name = "_" then
    return { p5 with nodeType := NodeType.PLACEHOLDER_STATEMENT }
  match lit with
  | none => return p5
  | some l =>
    let p6 := { p5 with nodeType := NodeType.LITERAL, isPure := true }
    match l.booleanLiteral with
    | some b =>
      let p7 := if p6.name = "true" ∨ p6.name = "false" then { p6 with name := "" } else p6
      let v := trimSpace (stripQuotes b)
      return { p7 with
        kind := NodeType.BOOLEAN
        value := v
        hexValue := hexEncode v
        typeDescription := some ⟨"t_bool", "bool"⟩ }
    | none =>
    match l.stringLiteral with
    | some s =>
      let v := trimSpace (stripQuotes s)
      return { p6 with
        name := ""
        kind := NodeType.STRING
        value := v
        hexValue := hexEncode v
        typeDescription := some ⟨"t_string_literal", "literal_string " ++ s⟩ }
    | none =>
    match l.numberLiteral with
    | some nlex =>
      let v := trimSpace (stripQuotes nlex)
      let p7 := { p6 with kind := NodeType.NUMBER, value := v, hexValue := hexEncode v }
      if v.data.contains '.' then
        match splitDotChars v.data with
        | part0 :: part1 :: _ =>
          let numerator := goAtoi (String.mk (part0 ++ part1))
          let denominator := powTenInt part1.length
          let td : TypeDescription :=
            ⟨"t_rational_" ++ toString numerator ++ "_by_" ++ toString denominator,
             "fixed_const " ++ nlex⟩
          return { p7 with typeDescription := some td }
        | _ => throw GoPanic.nilDeref
      else
        let numerator := goAtoi v
        let td : TypeDescription :=
          ⟨"t_rational_" ++ toString numerator ++ "_by_1", "int_const " ++ nlex⟩
        return { p7 with typeDescription := some td }
    | none =>
    match l.hexStringLiteral with
    | some _ =>
      -- the hex-string branch reads the string-literal accessor, which is
      -- nil on this path (the elif chain already matched it against nil)
      match l.stringLiteral with
      | some s =>
        let v := trimSpace (stripQuotes s)
        return { p6 with
          kind := NodeType.HEX_STRING
          value := v
          hexValue := hexEncode v
          typeDescription := some ⟨"t_string_hex_literal", "literal_hex_string " ++ s⟩ }
      | none => throw GoPanic.nilDeref
    | none =>
      let p7 := if txt = "msg" then { p6 with typeDescription := some magicMsgTd } else p6
      match p7.typeDescription with
      | none => throw GoPanic.nilDeref
      | some td =>
        if td.typeString = "" then
          match expNode with
          | some e => return { p7 with typeDescription := e.td }
          | none => return p7
        else
          return p7

/-- `PrimaryExpression.Parse`.  `pid` is the node id allocated by
`NewPrimaryExpression`, `srcId` the id the span capture allocates, `unitTd`
the enclosing source unit's type description, `vDeclarId` the id of the
variable declaration the expression initialises (when any).  The body runs
the source's sections in order: span capture, the magic-identifier checks,
argument-type copying, the identifier block, the placeholder short-circuit
and the literal block. -/
def PrimaryExpression.Parse (pid srcId : Int) (unitTd : Option TypeDescription)
    (fnNode : Option FnNode) (bodyNode : Option BodyNode)
    (vDeclarId : Option Int) (expNode : Option ExpNode) (resolve : Resolver)
    (ctx : PrimaryExpressionContext) : Except GoPanic PrimaryExpression := do
  let parentIndex : Int ←
    match expNode with
    | some e => pure e.id
    | none =>
      match vDeclarId with
      | some vid => pure vid
      | none =>
        match bodyNode with
        | some b => pure b.id
        | none => throw GoPanic.nilDeref
  let p0 : PrimaryExpression :=
    { id := pid
      nodeType := NodeType.IDENTIFIER
      kind := NodeType.UNSPECIFIED
      value := ""
      hexValue := ""
      src := mkSrcNode srcId ctx.span parentIndex
      name := ""
      typeDescription := none
      referencedDeclaration := 0
      isPure := false
      argumentTypes := [] }
  let p4 := argsStage expNode (magicStage unitTd ctx.text p0)
  let p5 ← identStage pid fnNode bodyNode resolve ctx.identifier p4
  literalStage ctx.text ctx.literal expNode p5

/- ### Result extractors (Except has no decidable equality; the claims
inspect the produced node's fields through these) -/

/-- Type description of a successfully parsed primary expression. -/
def resultTd (r : Except GoPanic PrimaryExpression) : Option (Option TypeDescription) :=
  match r with
  | Except.ok p => some p.typeDescription
  | Except.error _ => none

/-- Referenced declaration of a successfully parsed primary expression. -/
def resultRefDecl (r : Except GoPanic PrimaryExpression) : Option Int :=
  match r with
  | Except.ok p => some p.referencedDeclaration
  | Except.error _ => none

/-- Node type of a successfully parsed primary expression. -/
def resultNodeType (r : Except GoPanic PrimaryExpression) : Option NodeType :=
  match r with
  | Except.ok p => some p.nodeType
  | Except.error _ => none

/- ### The TypeName translator family -/

/-- `PathNode`: id, name, kind, resolved declaration, span. -/
structure PathNode where
  id : Int
  name : String
  nodeType : NodeType
  referencedDeclaration : Int
  src : SrcNode
deriving DecidableEq, Repr

/-- The scalar fields of a `TypeName` node. -/
structure TypeNameData where
  id : Int
  nodeType : NodeType
  src : SrcNode
  name : String
  typeDescription : Option TypeDescription
  referencedDeclaration : Int
  stateMutability : Mutability
  pathNode : Option PathNode
deriving DecidableEq, Repr

/-- A `TypeName` node: scalar fields plus the recursive `KeyType` and
`ValueType` children (present only for mapping type names). -/
inductive TypeNameNode where
  | mk (data : TypeNameData) (keyType valueType : Option TypeNameNode)

/-- Scalar fields of a `TypeName` node. -/
def TypeNameNode.data : TypeNameNode → TypeNameData
  | TypeNameNode.mk d _ _ => d

/-- `GetKeyType`. -/
def TypeNameNode.keyType : TypeNameNode → Option TypeNameNode
  | TypeNameNode.mk _ k _ => k

/-- `GetValueType`. -/
def TypeNameNode.valueType : TypeNameNode → Option TypeNameNode
  | TypeNameNode.mk _ _ v => v

/-- `GetTypeDescription`. -/
def TypeNameNode.typeDescription (t : TypeNameNode) : Option TypeDescription :=
  t.data.typeDescription

/-- `GetName`. -/
def TypeNameNode.name (t : TypeNameNode) : String := t.data.name

/-- `GetId`. -/
def TypeNameNode.id (t : TypeNameNode) : Int := t.data.id

/-- `GetSrc`. -/
def TypeNameNode.src (t : TypeNameNode) : SrcNode := t.data.src

/-- `GetType`. -/
def TypeNameNode.nodeType (t : TypeNameNode) : NodeType := t.data.nodeType

/-- `GetPathNode`. -/
def TypeNameNode.pathNode (t : TypeNameNode) : Option PathNode := t.data.pathNode

/-- Updates the scalar fields of a `TypeName` node. -/
def TypeNameNode.withData (t : TypeNameNode) (f : TypeNameData → TypeNameData) : TypeNameNode :=
  match t with
  | TypeNameNode.mk d k v => TypeNameNode.mk (f d) k v

/-- Sets the `KeyType` child. -/
def TypeNameNode.withKeyType (t : TypeNameNode) (k : Option TypeNameNode) : TypeNameNode :=
  match t with
  | TypeNameNode.mk d _ v => TypeNameNode.mk d k v

/-- Sets the `ValueType` child. -/
def TypeNameNode.withValueType (t : TypeNameNode) (v : Option TypeNameNode) : TypeNameNode :=
  match t with
  | TypeNameNode.mk d k _ => TypeNameNode.mk d k v

/-- A mapping key production (`MappingKeyTypeContext`): either an elementary
type name or an identifier path (the `ElementaryTypeName()` accessor is then
nil). -/
inductive MappingKeyCtx where
  | elementary (text : String) (span : CtxSpan)
  | path (text : String) (span : CtxSpan)
deriving DecidableEq, Repr

/-- A type-name production (`TypeNameContext`), per the grammar shapes the
spec's TypeName translator dispatches on: elementary, mapping (with its key
and value sub-productions), function type, or user-defined identifier path
(with the inner path production's own extents). -/
inductive TypeNameCtx where
  | elementary (text : String) (span : CtxSpan)
  | mappingType (text : String) (key : MappingKeyCtx) (value : TypeNameCtx) (span : CtxSpan)
  | functionType (text : String) (span : CtxSpan)
  | path (text : String) (span : CtxSpan) (pathSpan : CtxSpan)
deriving DecidableEq, Repr

/-- `GetText` of a type-name production. -/
def TypeNameCtx.text : TypeNameCtx → String
  | TypeNameCtx.elementary s _ => s
  | TypeNameCtx.mappingType s _ _ _ => s
  | TypeNameCtx.functionType s _ => s
  | TypeNameCtx.path s _ _ => s

/-- Token extents of a type-name production. -/
def TypeNameCtx.span : TypeNameCtx → CtxSpan
  | TypeNameCtx.elementary _ sp => sp
  | TypeNameCtx.mappingType _ _ _ sp => sp
  | TypeNameCtx.functionType _ sp => sp
  | TypeNameCtx.path _ sp _ => sp

/-- The normalization table for elementary type spellings
(`normalizeTypeDescription`, defined outside the embedded files): raw
spelling to `(typeString, typeIdentifier)`.  Taken as a parameter. -/
abbrev Normalizer := String → String × String

/-- `generateTypeName` on a `MappingKeyTypeContext` (the key of a mapping):
a fresh node (ids `c` and `c+1`) named by the production text, type
description from normalization when the key is elementary, otherwise left to
the trailing resolver fallback.  Returns the node and the next id. -/
def genKey (normalize : Normalizer) (resolve : Resolver) (c parentId : Int)
    (k : MappingKeyCtx) : TypeNameNode × Int :=
  match k with
  | MappingKeyCtx.elementary text sp =>
    let n := normalize text
    (TypeNameNode.mk
      { id := c
        nodeType := NodeType.ELEMENTARY_TYPE_NAME
        src := mkSrcNode (c + 1) sp parentId
        name := text
        typeDescription := some ⟨n.2, n.1⟩
        referencedDeclaration := 0
        stateMutability := Mutability.UNSPECIFIED
        pathNode := none } none none, c + 2)
  | MappingKeyCtx.path text sp =>
    let base : TypeNameData :=
      { id := c
        nodeType := NodeType.ELEMENTARY_TYPE_NAME
        src := mkSrcNode (c + 1) sp parentId
        name := text
        typeDescription := none
        referencedDeclaration := 0
        stateMutability := Mutability.UNSPECIFIED
        pathNode := none }
    match resolve text with
    | some rr =>
      (TypeNameNode.mk { base with referencedDeclaration := rr.1, typeDescription := rr.2 }
        none none, c + 2)
    | none => (TypeNameNode.mk base none none, c + 2)

/-- `parseTypeName` on a production with no elementary, mapping or
function-type child (the user-defined-type branch): overwrites the
receiver's name and span, re-tags it, builds the `PathNode` from the inner
identifier-path production (ids `c+1` and `c+2`; the new span id is `c`),
and attempts resolution, propagating a hit onto both nodes. -/
def parseTypeNamePath (t : TypeNameNode) (c parentNodeId : Int)
    (resolve : Resolver) (text : String) (sp pathSp : CtxSpan) : TypeNameNode × Int :=
  let t1 := t.withData (fun d =>
    { d with
      name := text
      src := mkSrcNode c sp parentNodeId
      nodeType := NodeType.USER_DEFINED_PATH_NAME })
  let pn : PathNode :=
    { id := c + 1
      name := text
      nodeType := NodeType.IDENTIFIER_PATH
      referencedDeclaration := 0
      src := mkSrcNode (c + 2) pathSp t1.id }
  match resolve text with
  | some rr =>
    (t1.withData (fun d =>
      { d with
        pathNode := some { pn with referencedDeclaration := rr.1 }
        referencedDeclaration := rr.1
        typeDescription := rr.2 }), c + 3)
  | none =>
    (t1.withData (fun d => { d with pathNode := some pn }), c + 3)

/-- The composite mapping type description (`parseMappingTypeName` and the
mapping arm of `generateTypeName`): display string from the children's
names, identifier composed from the children's identifiers.  Reading an
unresolved child's identifier dereferences nil. -/
def mappingComposite (kNode vNode : TypeNameNode) : Except GoPanic TypeDescription :=
  match kNode.typeDescription, vNode.typeDescription with
  | some kt, some vt =>
    pure ⟨"t_mapping_$" ++ kt.typeIdentifier ++ "_$" ++ vt.typeIdentifier ++ "$",
          "mapping(" ++ kNode.name ++ " => " ++ vNode.name ++ ")"⟩
  | _, _ => throw GoPanic.nilDeref

/-- `generateTypeName` on a full type-name production (the
`ITypeNameContext` arm).  `t` is the method receiver, mutated in the
identifier-path case (the code calls `parseTypeName` on the receiver there);
the assignment `parentNode.TypeDescription = t.TypeDescription` in the
mapping arm is a self-assignment in every call chain (the parent node is the
receiver) and therefore has no effect.  Returns the fresh node, the updated
receiver and the next id. -/
def genTN (normalize : Normalizer) (resolve : Resolver) (t : TypeNameNode)
    (c parentId : Int) : TypeNameCtx → Except GoPanic (TypeNameNode × TypeNameNode × Int)
  | TypeNameCtx.elementary text sp =>
    let n := normalize text
    pure (TypeNameNode.mk
      { id := c
        nodeType := NodeType.ELEMENTARY_TYPE_NAME
        src := mkSrcNode (c + 1) sp parentId
        name := text
        typeDescription := some ⟨n.2, n.1⟩
        referencedDeclaration := 0
        stateMutability := Mutability.UNSPECIFIED
        pathNode := none } none none, t, c + 2)
  | TypeNameCtx.functionType _ _ => throw GoPanic.unsupportedFunctionType
  | TypeNameCtx.path text sp pathSp => do
    -- fresh node ids `c`, `c+1`; the else branch then runs on the receiver
    let pr := parseTypeNamePath t (c + 2) parentId resolve text sp pathSp
    let fresh0 : TypeNameData :=
      { id := c
        nodeType := NodeType.ELEMENTARY_TYPE_NAME
        src := mkSrcNode (c + 1) sp parentId
        name := text
        typeDescription := none
        referencedDeclaration := 0
        stateMutability := Mutability.UNSPECIFIED
        pathNode := none }
    -- trailing fallback: the fresh node has no type description yet
    match resolve text with
    | some rr =>
      pure (TypeNameNode.mk
        { fresh0 with referencedDeclaration := rr.1, typeDescription := rr.2 } none none,
        pr.1, pr.2)
    | none => pure (TypeNameNode.mk fresh0 none none, pr.1, pr.2)
  | TypeNameCtx.mappingType text key value sp => do
    -- fresh node ids `c`, `c+1`; the recursive mapping arm allocates an
    -- orphan node id `c+2` and fills the fresh node's children
    let kr := genKey normalize resolve (c + 3) parentId key
    let (vNode, t1, c2) ← genTN normalize resolve t kr.2 parentId value
    let comp ← mappingComposite kr.1 vNode
    pure (TypeNameNode.mk
      { id := c
        nodeType := NodeType.MAPPING_TYPE_NAME
        src := mkSrcNode (c + 1) sp parentId
        name := text
        typeDescription := some comp
        referencedDeclaration := 0
        stateMutability := Mutability.UNSPECIFIED
        pathNode := none } (some kr.1) (some vNode), t1, c2)

/-- `parseMappingTypeName`: translates the key and value (the value through
the full `generateTypeName`, which may clobber the receiver in the
user-defined case), wires `KeyType`/`ValueType`, then composes the mapping
type description. -/
def parseMappingTypeNameFn (normalize : Normalizer) (resolve : Resolver)
    (t : TypeNameNode) (c : Int) (key : MappingKeyCtx) (value : TypeNameCtx) :
    Except GoPanic (TypeNameNode × Int) := do
  let kr := genKey normalize resolve c t.id key
  let t1 := (t.withKeyType (some kr.1))
  let (vNode, t2, c2) ← genTN normalize resolve t1 kr.2 t.id value
  let t3 := t2.withValueType (some vNode)
  let comp ← mappingComposite kr.1 vNode
  pure (t3.withData (fun d => { d with typeDescription := some comp }), c2)

/-- `parseTypeName`: sets the receiver's name and span (span id `c`), then
dispatches on the production shape; the mapping shape re-enters
`generateTypeName` with the receiver as both parent and target node
(allocating an orphan node id on the way). -/
def parseTypeNameFn (normalize : Normalizer) (resolve : Resolver)
    (t : TypeNameNode) (c parentNodeId : Int) (ctx : TypeNameCtx) :
    Except GoPanic (TypeNameNode × Int) := do
  match ctx with
  | TypeNameCtx.elementary text sp =>
    let n := normalize text
    pure (t.withData (fun d =>
      { d with
        name := text
        src := mkSrcNode c sp parentNodeId
        typeDescription := some ⟨n.2, n.1⟩ }), c + 1)
  | TypeNameCtx.mappingType text key value sp =>
    let t1 := t.withData (fun d =>
      { d with
        name := text
        src := mkSrcNode c sp parentNodeId
        nodeType := NodeType.MAPPING_TYPE_NAME })
    -- generateTypeName on the mapping production with the receiver as the
    -- target node: orphan id `c+1`, then key and value sub-translations
    let kr := genKey normalize resolve (c + 2) t1.id key
    let t2 := t1.withKeyType (some kr.1)
    let (vNode, t3, c2) ← genTN normalize resolve t2 kr.2 t2.id value
    let t4 := t3.withValueType (some vNode)
    let comp ← mappingComposite kr.1 vNode
    pure (t4.withData (fun d => { d with typeDescription := some comp }), c2)
  | TypeNameCtx.functionType _ _ => throw GoPanic.unsupportedFunctionType
  | TypeNameCtx.path text sp pathSp =>
    -- `parseTypeNamePath` performs the name/span overwrite itself (span id
    -- `c`) and then runs the user-defined-type branch (ids `c+1`, `c+2`)
    pure (parseTypeNamePath t c parentNodeId resolve text sp pathSp)

/-- `parseElementaryTypeName`: name, re-tag, mutability from the normalized
identifier for the address family, type description from normalization.
Allocates no ids and keeps the span set by `TypeName.Parse`. -/
def parseElementaryTypeNameFn (normalize : Normalizer) (t : TypeNameNode)
    (text : String) : TypeNameNode :=
  let n := normalize text
  t.withData (fun d =>
    { d with
      name := text
      nodeType := NodeType.ELEMENTARY_TYPE_NAME
      stateMutability :=
        if n.2 = "t_address" then Mutability.NONPAYABLE
        else if n.2 = "t_address_payable" then Mutability.PAYABLE
        else d.stateMutability
      typeDescription := some ⟨n.2, n.1⟩ })

/-- `parseIdentifierPath`: re-tags the receiver, builds a `PathNode` from the
first identifier of the path (ids `c` and `c+1`), and attempts resolution,
propagating a hit onto both nodes. -/
def parseIdentifierPathFn (resolve : Resolver) (t : TypeNameNode) (c : Int)
    (text : String) (idSp : CtxSpan) : TypeNameNode × Int :=
  let t1 := t.withData (fun d => { d with nodeType := NodeType.USER_DEFINED_PATH_NAME })
  let pn : PathNode :=
    { id := c
      name := text
      nodeType := NodeType.IDENTIFIER_PATH
      referencedDeclaration := 0
      src := mkSrcNode (c + 1) idSp t1.id }
  match resolve text with
  | some rr =>
    (t1.withData (fun d =>
      { d with
        pathNode := some { pn with referencedDeclaration := rr.1 }
        referencedDeclaration := rr.1
        typeDescription := rr.2 }), c + 2)
  | none => (t1.withData (fun d => { d with pathNode := some pn }), c + 2)

/-- A child of a type-name production as `TypeName.Parse` dispatches on it:
the four recognized sub-productions, a bare terminal token (skipped), or any
other production shape (the default arm panics). -/
inductive TypeNameChild where
  | elementaryChild (text : String) (span : CtxSpan)
  | mappingChild (key : MappingKeyCtx) (value : TypeNameCtx)
  | identifierPathChild (text : String) (span : CtxSpan)
  | typeNameChild (ctx : TypeNameCtx)
  | terminalChild (text : String)
  | otherChild
deriving DecidableEq, Repr

/-- The child-dispatch loop of `TypeName.Parse`. -/
def typeNameParseGo (normalize : Normalizer) (resolve : Resolver)
    (parentNodeId : Int) (t : TypeNameNode) (c : Int) :
    List TypeNameChild → Except GoPanic (TypeNameNode × Int)
  | [] => pure (t, c)
  | child :: rest => do
    match child with
    | TypeNameChild.elementaryChild text _ =>
      typeNameParseGo normalize resolve parentNodeId
        (parseElementaryTypeNameFn normalize t text) c rest
    | TypeNameChild.mappingChild key value => do
      let r ← parseMappingTypeNameFn normalize resolve t c key value
      typeNameParseGo normalize resolve parentNodeId r.1 r.2 rest
    | TypeNameChild.identifierPathChild text sp =>
      let r := parseIdentifierPathFn resolve t c text sp
      typeNameParseGo normalize resolve parentNodeId r.1 r.2 rest
    | TypeNameChild.typeNameChild ctx => do
      let r ← parseTypeNameFn normalize resolve t c parentNodeId ctx
      typeNameParseGo normalize resolve parentNodeId r.1 r.2 rest
    | TypeNameChild.terminalChild _ =>
      typeNameParseGo normalize resolve parentNodeId t c rest
    | TypeNameChild.otherChild => throw GoPanic.unknownTypeNameChild

/-- `TypeName.Parse`: allocates the node id (`c`) and span id (`c+1`), then
dispatches every child production; unrecognized children panic, terminal
tokens are skipped. -/
def TypeNameParse (normalize : Normalizer) (resolve : Resolver)
    (c parentNodeId : Int) (sp : CtxSpan) (children : List TypeNameChild) :
    Except GoPanic (TypeNameNode × Int) :=
  let t0 := TypeNameNode.mk
    { id := c
      nodeType := NodeType.UNSPECIFIED
      src := mkSrcNode (c + 1) sp parentNodeId
      name := ""
      typeDescription := none
      referencedDeclaration := 0
      stateMutability := Mutability.UNSPECIFIED
      pathNode := none } none none
  typeNameParseGo normalize resolve parentNodeId t0 (c + 2) children

/- ### The expression-statement dispatcher -/

/-- A child of an expression-statement production as the dispatcher matches
on it.  The non-primary delegates are separate translators outside the
embedded files, so only their selection is modelled. -/
inductive ExprStmtChild where
  | functionCallChild
  | assignmentChild
  | primaryExpressionChild (ctx : PrimaryExpressionContext)
  | unarySuffixChild
  | unaryPrefixChild
  | orderComparisonChild
  | terminalChild (text : String)
  | otherChild
deriving DecidableEq, Repr

/-- The node kind an expression statement desugars to. -/
inductive ExprStmtResult where
  | functionCallNode
  | assignmentNode
  | primaryNode (p : PrimaryExpression)
  | unarySuffixNode
  | unaryPrefixNode
  | orderComparisonNode
deriving DecidableEq, Repr

/-- `parseExpressionStatement`: returns the delegate's node for the first
recognized child, skips terminal tokens (a statement of only punctuation
contributes no node), and panics on any unrecognized child production. -/
def parseExpressionStatementFn (pid srcId : Int) (unitTd : Option TypeDescription)
    (fnNode : Option FnNode) (bodyNode : Option BodyNode) (resolve : Resolver) :
    List ExprStmtChild → Except GoPanic (Option ExprStmtResult)
  | [] => pure none
  | ExprStmtChild.functionCallChild :: _ => pure (some ExprStmtResult.functionCallNode)
  | ExprStmtChild.assignmentChild :: _ => pure (some ExprStmtResult.assignmentNode)
  | ExprStmtChild.primaryExpressionChild ctx :: _ => do
    let p ← PrimaryExpression.Parse pid srcId unitTd fnNode bodyNode none none resolve ctx
    pure (some (ExprStmtResult.primaryNode p))
  | ExprStmtChild.unarySuffixChild :: _ => pure (some ExprStmtResult.unarySuffixNode)
  | ExprStmtChild.unaryPrefixChild :: _ => pure (some ExprStmtResult.unaryPrefixNode)
  | ExprStmtChild.orderComparisonChild :: _ => pure (some ExprStmtResult.orderComparisonNode)
  | ExprStmtChild.terminalChild _ :: rest =>
    parseExpressionStatementFn pid srcId unitTd fnNode bodyNode resolve rest
  | ExprStmtChild.otherChild :: _ => throw GoPanic.unknownExpressionChild

/- ### More result extractors and shared fixtures -/

/-- Value field of a successfully parsed primary expression. -/
def resultValue (r : Except GoPanic PrimaryExpression) : Option String :=
  match r with
  | Except.ok p => some p.value
  | Except.error _ => none

/-- Kind field of a successfully parsed primary expression. -/
def resultKind (r : Except GoPanic PrimaryExpression) : Option NodeType :=
  match r with
  | Except.ok p => some p.kind
  | Except.error _ => none

/-- Purity flag of a successfully parsed primary expression. -/
def resultIsPure (r : Except GoPanic PrimaryExpression) : Option Bool :=
  match r with
  | Except.ok p => some p.isPure
  | Except.error _ => none

/-- Type description of a successfully parsed type name. -/
def tnResultTd (r : Except GoPanic (TypeNameNode × Int)) : Option (Option TypeDescription) :=
  match r with
  | Except.ok t => some t.1.typeDescription
  | Except.error _ => none

/-- The panic a type-name translation aborted with, when it did. -/
def tnErr (r : Except GoPanic (TypeNameNode × Int)) : Option GoPanic :=
  match r with
  | Except.ok _ => none
  | Except.error e => some e

/-- Outcome of the expression-statement dispatcher. -/
def esResult (r : Except GoPanic (Option ExprStmtResult)) :
    Option (Option ExprStmtResult) :=
  match r with
  | Except.ok x => some x
  | Except.error _ => none

/-- The panic the expression-statement dispatcher aborted with, when it did. -/
def esErr (r : Except GoPanic (Option ExprStmtResult)) : Option GoPanic :=
  match r with
  | Except.ok _ => none
  | Except.error e => some e

/-- A primary-expression context for a bare number literal: the production
text is the lexeme, there is no identifier child, and only the
number-literal accessor is populated. -/
def numberCtx (lex : String) (sp : CtxSpan) : PrimaryExpressionContext :=
  { text := lex
    identifier := none
    literal := some { booleanLiteral := none, stringLiteral := none,
                      numberLiteral := some lex, hexStringLiteral := none }
    span := sp }

/-- Fixture span. -/
def sp0 : CtxSpan := ⟨1, 0, 10, 19⟩

/-- Fixture resolver that never finds anything. -/
def res0 : Resolver := fun _ => none

/-- Fixture normalization table with the two elementary spellings the
examples use and pass-through for everything else. -/
def norm0 : Normalizer := fun s =>
  if s = "address" then ("address", "t_address")
  else if s = "uint256" then ("uint256", "t_uint256")
  else (s, "t_" ++ s)

/- ### Projection lemmas through the conditional field updates -/

theorem name_ite_td (c : Prop) [Decidable c] (p : PrimaryExpression)
    (x : Option TypeDescription) :
    (if c then { p with typeDescription := x } else p).name = p.name := by
  split <;> rfl

theorem kind_ite_td (c : Prop) [Decidable c] (p : PrimaryExpression)
    (x : Option TypeDescription) :
    (if c then { p with typeDescription := x } else p).kind = p.kind := by
  split <;> rfl

theorem value_ite_td (c : Prop) [Decidable c] (p : PrimaryExpression)
    (x : Option TypeDescription) :
    (if c then { p with typeDescription := x } else p).value = p.value := by
  split <;> rfl

theorem isPure_ite_td (c : Prop) [Decidable c] (p : PrimaryExpression)
    (x : Option TypeDescription) :
    (if c then { p with typeDescription := x } else p).isPure = p.isPure := by
  split <;> rfl

theorem src_ite_td (c : Prop) [Decidable c] (p : PrimaryExpression)
    (x : Option TypeDescription) :
    (if c then { p with typeDescription := x } else p).src = p.src := by
  split <;> rfl

theorem refDecl_ite_td (c : Prop) [Decidable c] (p : PrimaryExpression)
    (x : Option TypeDescription) :
    (if c then { p with typeDescription := x } else p).referencedDeclaration =
      p.referencedDeclaration := by
  split <;> rfl

theorem nodeType_ite_td (c : Prop) [Decidable c] (p : PrimaryExpression)
    (x : Option TypeDescription) :
    (if c then { p with typeDescription := x } else p).nodeType = p.nodeType := by
  split <;> rfl

theorem td_ite_td (c : Prop) [Decidable c] (p : PrimaryExpression)
    (x : Option TypeDescription) :
    (if c then { p with typeDescription := x } else p).typeDescription =
      if c then x else p.typeDescription := by
  split <;> rfl

theorem name_ite_args (c : Prop) [Decidable c] (p : PrimaryExpression)
    (x : List (Option TypeDescription)) :
    (if c then { p with argumentTypes := x } else p).name = p.name := by
  split <;> rfl

theorem kind_ite_args (c : Prop) [Decidable c] (p : PrimaryExpression)
    (x : List (Option TypeDescription)) :
    (if c then { p with argumentTypes := x } else p).kind = p.kind := by
  split <;> rfl

theorem value_ite_args (c : Prop) [Decidable c] (p : PrimaryExpression)
    (x : List (Option TypeDescription)) :
    (if c then { p with argumentTypes := x } else p).value = p.value := by
  split <;> rfl

theorem isPure_ite_args (c : Prop) [Decidable c] (p : PrimaryExpression)
    (x : List (Option TypeDescription)) :
    (if c then { p with argumentTypes := x } else p).isPure = p.isPure := by
  split <;> rfl

theorem src_ite_args (c : Prop) [Decidable c] (p : PrimaryExpression)
    (x : List (Option TypeDescription)) :
    (if c then { p with argumentTypes := x } else p).src = p.src := by
  split <;> rfl

theorem refDecl_ite_args (c : Prop) [Decidable c] (p : PrimaryExpression)
    (x : List (Option TypeDescription)) :
    (if c then { p with argumentTypes := x } else p).referencedDeclaration =
      p.referencedDeclaration := by
  split <;> rfl

theorem nodeType_ite_args (c : Prop) [Decidable c] (p : PrimaryExpression)
    (x : List (Option TypeDescription)) :
    (if c then { p with argumentTypes := x } else p).nodeType = p.nodeType := by
  split <;> rfl

theorem td_ite_args (c : Prop) [Decidable c] (p : PrimaryExpression)
    (x : List (Option TypeDescription)) :
    (if c then { p with argumentTypes := x } else p).typeDescription =
      p.typeDescription := by
  split <;> rfl

/- ### Helper lemmas about the string and conversion models -/

theorem mkString_data (l : List Char) : (String.mk l).data = l := rfl

theorem isDigit_ne_dash (c : Char) (h : c.isDigit = true) : c ≠ '-' := by
  intro he; subst he; simp [Char.isDigit] at h

theorem isDigit_ne_plus (c : Char) (h : c.isDigit = true) : c ≠ '+' := by
  intro he; subst he; simp [Char.isDigit] at h

theorem goSign_digits (l : List Char) (h : l.all Char.isDigit = true) :
    goSign l = (false, l) := by
  cases l with
  | nil => rfl
  | cons c r =>
    simp only [List.all_cons, Bool.and_eq_true] at h
    unfold goSign
    split
    · rename_i heq; rw [List.cons.injEq] at heq
      exact absurd heq.1 (isDigit_ne_dash c h.1)
    · rename_i heq; rw [List.cons.injEq] at heq
      exact absurd heq.1 (isDigit_ne_plus c h.1)
    · rfl

theorem goAtoi_digits (l : List Char) (hne : l ≠ [])
    (hd : l.all Char.isDigit = true) (hle : (digitsVal l : Int) ≤ int64Max) :
    goAtoi (String.mk l) = (digitsVal l : Int) := by
  unfold goAtoi
  rw [mkString_data, goSign_digits l hd]
  simp [hne, hd, List.isEmpty_iff, min_eq_left hle]

theorem goAtoi_digits_clamp (l : List Char) (hne : l ≠ [])
    (hd : l.all Char.isDigit = true) (hgt : int64Max < (digitsVal l : Int)) :
    goAtoi (String.mk l) = int64Max := by
  unfold goAtoi
  rw [mkString_data, goSign_digits l hd]
  simp [hne, hd, List.isEmpty_iff, min_eq_right (le_of_lt hgt)]

theorem goAtoi_syntax_err (s : String)
    (h : (goSign s.data).2.isEmpty = true ∨ (goSign s.data).2.all Char.isDigit = false) :
    goAtoi s = 0 := by
  unfold goAtoi
  rcases h with h | h <;> simp [h]

theorem splitDot_cons_dot (r : List Char) :
    splitDotChars ('.' :: r) = [] :: splitDotChars r := rfl

theorem splitDot_cons_ne (c : Char) (r : List Char) (hc : ¬ c = '.') :
    splitDotChars (c :: r) =
      match splitDotChars r with
      | h :: t => (c :: h) :: t
      | [] => [[c]] := by
  conv_lhs => unfold splitDotChars
  split
  · rename_i heq; simp at heq
  · rename_i heq
    rw [List.cons.injEq] at heq
    exact absurd heq.1 hc
  · rename_i x heq
    rw [List.cons.injEq] at heq
    obtain ⟨h1, h2⟩ := heq
    subst h1; subst h2; rfl

theorem splitDot_no_dot (l : List Char) (h : '.' ∉ l) : splitDotChars l = [l] := by
  induction l with
  | nil => rfl
  | cons c r ih =>
    rw [List.mem_cons, not_or] at h
    rw [splitDot_cons_ne c r (fun he => h.1 he.symm), ih h.2]

theorem splitDot_append (a b : List Char) (h : '.' ∉ a) :
    splitDotChars (a ++ '.' :: b) = a :: splitDotChars b := by
  induction a with
  | nil => simp [splitDot_cons_dot]
  | cons c r ih =>
    rw [List.mem_cons, not_or] at h
    rw [List.cons_append, splitDot_cons_ne c _ (fun he => h.1 he.symm), ih h.2]

theorem dropWhile_none (l : List Char) (h : ∀ c ∈ l, c.isWhitespace = false) :
    l.dropWhile Char.isWhitespace = l := by
  cases l with
  | nil => rfl
  | cons c r =>
    rw [List.dropWhile_cons, h c (List.mem_cons_self c r)]
    simp

theorem trimSpace_id (l : List Char) (h : ∀ c ∈ l, c.isWhitespace = false) :
    trimSpace (String.mk l) = String.mk l := by
  unfold trimSpace dropTrailingWs
  rw [mkString_data, dropWhile_none l h,
    dropWhile_none _ (fun c hc => h c (List.mem_reverse.mp hc)), List.reverse_reverse]

theorem stripQuotes_id (l : List Char) (h : ∀ c ∈ l, c ≠ '"') :
    stripQuotes (String.mk l) = String.mk l := by
  unfold stripQuotes
  rw [mkString_data]
  congr 1
  exact List.filter_eq_self.mpr (fun a ha => by simpa using h a ha)

theorem digit_not_ws (c : Char) (h : c.isDigit = true) : c.isWhitespace = false := by
  by_contra hw
  rw [Bool.not_eq_false] at hw
  simp only [Char.isWhitespace, Bool.or_eq_true, decide_eq_true_eq] at hw
  rcases hw with ((h1 | h1) | h1) | h1 <;> (subst h1; exact absurd h (by decide))

theorem digit_ne_quote (c : Char) (h : c.isDigit = true) : c ≠ '"' := by
  intro he; subst he; exact absurd h (by decide)

theorem digit_or_dot_clean (c : Char) (h : c.isDigit = true ∨ c = '.') :
    c ≠ '"' ∧ c.isWhitespace = false := by
  rcases h with h | h
  · exact ⟨digit_ne_quote c h, digit_not_ws c h⟩
  · subst h; exact ⟨by decide, by decide⟩

theorem clean_id (l : List Char) (h : ∀ c ∈ l, c.isDigit = true ∨ c = '.') :
    trimSpace (stripQuotes (String.mk l)) = String.mk l := by
  rw [stripQuotes_id l (fun c hc => (digit_or_dot_clean c (h c hc)).1),
    trimSpace_id l (fun c hc => (digit_or_dot_clean c (h c hc)).2)]

theorem toString_int_ofNat (n : Nat) : toString ((n : Nat) : Int) = toString n := rfl

theorem contains_dot_mid (a b : List Char) : (a ++ '.' :: b).contains '.' = true := by
  simp [List.contains]

theorem contains_no_dot (l : List Char) (h : '.' ∉ l) : l.contains '.' = false := by
  simp [List.contains, h]

/- ### Scope-scan predicates and lemmas -/

/-- Whether a statement is a variable declaration declaring the name. -/
def stmtDeclaresB (nm : String) : Statement → Bool
  | Statement.varDecl v => (findDecl nm v.declarations).isSome
  | Statement.other => false

/-- Whether scanning the statement for the name cannot dereference nil (any
matching declaration carries a TypeName). -/
def stmtSafeB (nm : String) : Statement → Bool
  | Statement.varDecl v =>
    match findDecl nm v.declarations with
    | some d => d.typeName.isSome
    | none => true
  | Statement.other => true

/-- Whether any matching declaration in the statement carries a TypeName
with a present type description. -/
def stmtTypedB (nm : String) : Statement → Bool
  | Statement.varDecl v =>
    match findDecl nm v.declarations with
    | some d =>
      match d.typeName with
      | some (some _) => true
      | _ => false
    | none => true
  | Statement.other => true

/-- The statement whose declaration a body-local reference resolves to, per
the spec's wording: the last variable-declaration statement declaring the
name (later re-declarations shadow earlier ones). -/
def lastLocalMatch (nm : String) : List Statement → Option VariableDeclarationStmt
  | [] => none
  | Statement.varDecl v :: rest =>
    match lastLocalMatch nm rest with
    | some w => some w
    | none => if (findDecl nm v.declarations).isSome then some v else none
  | Statement.other :: rest => lastLocalMatch nm rest


theorem bodyScanE_no_match (nm : String) (acc : Option TypeDescription × Int)
    (stmts : List Statement) (h : ∀ s ∈ stmts, stmtDeclaresB nm s = false) :
    bodyScanE nm acc stmts = pure acc := by
  induction stmts with
  | nil => rfl
  | cons s rest ih =>
    have hs := h s (List.mem_cons_self s rest)
    have hr : ∀ t ∈ rest, stmtDeclaresB nm t = false :=
      fun t ht => h t (List.mem_cons_of_mem s ht)
    cases s with
    | varDecl v =>
      simp only [stmtDeclaresB] at hs
      cases hfd : findDecl nm v.declarations with
      | none => simp only [bodyScanE, hfd]; exact ih hr
      | some d => rw [hfd] at hs; simp at hs
    | other => simp only [bodyScanE]; exact ih hr

theorem bodyScanE_safe (nm : String) (acc : Option TypeDescription × Int)
    (stmts : List Statement) (h : ∀ s ∈ stmts, stmtSafeB nm s = true) :
    ∃ r, bodyScanE nm acc stmts = pure r := by
  induction stmts generalizing acc with
  | nil => exact ⟨acc, rfl⟩
  | cons s rest ih =>
    have hs := h s (List.mem_cons_self s rest)
    have hr : ∀ t ∈ rest, stmtSafeB nm t = true :=
      fun t ht => h t (List.mem_cons_of_mem s ht)
    cases s with
    | varDecl v =>
      cases hfd : findDecl nm v.declarations with
      | none => simp only [bodyScanE, hfd]; exact ih acc hr
      | some d =>
        simp only [stmtSafeB, hfd] at hs
        cases htn : d.typeName with
        | none => rw [htn] at hs; simp at hs
        | some tn => simp only [bodyScanE, hfd, htn]; exact ih (tn, v.id) hr
    | other => simp only [bodyScanE]; exact ih acc hr

theorem bodyScanE_last_match (nm : String) (v : VariableDeclarationStmt)
    (d : Declaration) (tdo : Option TypeDescription)
    (pre post : List Statement)
    (hd : findDecl nm v.declarations = some d) (htn : d.typeName = some tdo)
    (hpost : ∀ s ∈ post, stmtDeclaresB nm s = false) :
    ∀ (acc : Option TypeDescription × Int),
      (∀ s ∈ pre, stmtSafeB nm s = true) →
      bodyScanE nm acc (pre ++ Statement.varDecl v :: post) = pure (tdo, v.id) := by
  induction pre with
  | nil =>
    intro acc _
    simp only [List.nil_append, bodyScanE, hd, htn]
    exact bodyScanE_no_match nm (tdo, v.id) post hpost
  | cons s rest ih =>
    intro acc hpre
    have hs := hpre s (List.mem_cons_self s rest)
    have hr : ∀ t ∈ rest, stmtSafeB nm t = true :=
      fun t ht => hpre t (List.mem_cons_of_mem s ht)
    cases s with
    | varDecl w =>
      cases hfd : findDecl nm w.declarations with
      | none => simp only [List.cons_append, bodyScanE, hfd]; exact ih acc hr
      | some dw =>
        simp only [stmtSafeB, hfd] at hs
        cases htw : dw.typeName with
        | none => rw [htw] at hs; simp at hs
        | some tw =>
          simp only [List.cons_append, bodyScanE, hfd, htw]
          exact ih (tw, w.id) hr
    | other => simp only [List.cons_append, bodyScanE]; exact ih acc hr

theorem bodyScanE_typed (nm : String) (stmts : List Statement)
    (h : ∀ s ∈ stmts, stmtTypedB nm s = true) :
    ∀ (acc : Option TypeDescription × Int),
      match lastLocalMatch nm stmts with
      | some v => ∃ td, bodyScanE nm acc stmts = pure (some td, v.id)
      | none => bodyScanE nm acc stmts = pure acc := by
  induction stmts with
  | nil => intro acc; simp only [lastLocalMatch]; rfl
  | cons s rest ih =>
    intro acc
    have hs := h s (List.mem_cons_self s rest)
    have hr : ∀ t ∈ rest, stmtTypedB nm t = true :=
      fun t ht => h t (List.mem_cons_of_mem s ht)
    cases s with
    | varDecl v =>
      cases hfd : findDecl nm v.declarations with
      | none =>
        have hns : (findDecl nm v.declarations).isSome = false := by simp [hfd]
        have hrec := ih hr acc
        cases hl : lastLocalMatch nm rest with
        | some w =>
          rw [hl] at hrec
          simp only [lastLocalMatch, bodyScanE, hfd, hl]
          exact hrec
        | none =>
          rw [hl] at hrec
          simp only [lastLocalMatch, bodyScanE, hfd, hl, hns, if_false]
          exact hrec
      | some d =>
        simp only [stmtTypedB, hfd] at hs
        cases htn : d.typeName with
        | none => rw [htn] at hs; simp at hs
        | some tn =>
          cases tn with
          | none => rw [htn] at hs; simp at hs
          | some td0 =>
            have hsome : (findDecl nm v.declarations).isSome = true := by simp [hfd]
            have hrec := ih hr (some td0, v.id)
            cases hl : lastLocalMatch nm rest with
            | some w =>
              rw [hl] at hrec
              simp only [lastLocalMatch, bodyScanE, hfd, htn, hl]
              exact hrec
            | none =>
              rw [hl] at hrec
              simp only [lastLocalMatch, bodyScanE, hfd, htn, hl, hsome, if_true]
              exact ⟨td0, hrec⟩
    | other =>
      have hrec := ih hr acc
      cases hl : lastLocalMatch nm rest with
      | some w =>
        rw [hl] at hrec
        simp only [lastLocalMatch, bodyScanE, hl]
        exact hrec
      | none =>
        rw [hl] at hrec
        simp only [lastLocalMatch, bodyScanE, hl]
        exact hrec

theorem paramScan_no_match (pid : Int) (nm : String)
    (acc : Option TypeDescription × Int) (ps : List Parameter)
    (h : ∀ prm ∈ ps, prm.name ≠ nm) : paramScan pid nm acc ps = acc := by
  induction ps with
  | nil => rfl
  | cons prm rest ih =>
    have hs := h prm (List.mem_cons_self prm rest)
    simp only [paramScan, hs, if_false]
    exact ih (fun q hq => h q (List.mem_cons_of_mem prm hq))

theorem paramScan_any_typed (pid : Int) (nm : String)
    (acc : Option TypeDescription × Int) (ps : List Parameter)
    (ha : ps.any (fun prm => prm.name = nm) = true)
    (ht : ∀ prm ∈ ps, prm.name = nm → ∃ td, prm.typeName = some (some td)) :
    ∃ td, paramScan pid nm acc ps = (some td, pid) := by
  induction ps with
  | nil => simp at ha
  | cons prm rest ih =>
    by_cases hn : prm.name = nm
    · obtain ⟨td, htd⟩ := ht prm (List.mem_cons_self prm rest) hn
      exact ⟨td, by simp only [paramScan, hn, if_true, htd]⟩
    · simp only [List.any_cons, Bool.or_eq_true, decide_eq_true_eq] at ha
      rcases ha with ha | ha
      · exact absurd ha hn
      · simp only [paramScan, hn, if_false]
        exact ih ha (fun q hq hqn => ht q (List.mem_cons_of_mem prm hq) hqn)

/-- Written from the amended claim C5: the resolution result recorded in
`referencedDeclaration` is the id of the last matching body-local
variable-declaration statement; otherwise, when a parameter matches, the
expression's own id (a self-reference, not the parameter's id); otherwise
the id returned by the external resolver; otherwise 0 (unresolved). -/
def expectedRefDecl (pid : Int) (nm : String) (params : List Parameter)
    (stmts : List Statement) (resolve : Resolver) : Int :=
  match lastLocalMatch nm stmts with
  | some v => v.id
  | none =>
    if params.any (fun prm => prm.name = nm) then pid
    else
      match resolve nm with
      | some rr => rr.1
      | none => 0

/-- C3, counterexample. -/
theorem claim_C3_counterexample :
    resultTd (PrimaryExpression.Parse 5 6 none
      (some (FnNode.funcFn (some [⟨100, "msg", some (some ⟨"t_uint256", "uint256"⟩)⟩])))
      (some ⟨1, []⟩) none none res0 ⟨"msg", some "msg", none, sp0⟩) =
      some (some ⟨"t_uint256", "uint256"⟩) ∧
    (⟨"t_uint256", "uint256"⟩ : TypeDescription) ≠ magicMsgTd := by
  exact ⟨rfl, by decide⟩

/-- C3, amended. -/
theorem claim_C3 (pid srcId : Int) (unitTd : Option TypeDescription)
    (fn : Option FnNode) (bid : Int) (stmts : List Statement)
    (resolve : Resolver) (sp : CtxSpan)
    (hp : ∀ ps, (fn = some (FnNode.ctorFn ps) ∨ fn = some (FnNode.funcFn (some ps))) →
      ∀ prm ∈ ps, prm.name ≠ "msg")
    (hb : ∀ s ∈ stmts, stmtDeclaresB "msg" s = false) :
    resultTd (PrimaryExpression.Parse pid srcId unitTd fn (some ⟨bid, stmts⟩)
      none none resolve ⟨"msg", some "msg", none, sp⟩) = some (some magicMsgTd) := by
  have hbs := bodyScanE_no_match "msg" (some magicMsgTd, (0 : Int)) stmts hb
  match fn with
  | none =>
    simp [PrimaryExpression.Parse, magicStage, argsStage, identStage, identTail, literalStage, hbs, resultTd]
    rfl
  | some (FnNode.ctorFn ps) =>
    have hps := paramScan_no_match pid "msg" (some magicMsgTd, (0 : Int)) ps
      (hp ps (Or.inl rfl))
    simp [PrimaryExpression.Parse, magicStage, argsStage, identStage, identTail, literalStage, hps, hbs, resultTd]
    rfl
  | some (FnNode.funcFn none) =>
    simp [PrimaryExpression.Parse, magicStage, argsStage, identStage, identTail, literalStage, hbs, resultTd]
    rfl
  | some (FnNode.funcFn (some ps)) =>
    have hps := paramScan_no_match pid "msg" (some magicMsgTd, (0 : Int)) ps
      (hp ps (Or.inr rfl))
    simp [PrimaryExpression.Parse, magicStage, argsStage, identStage, identTail, literalStage, hps, hbs, resultTd]
    rfl
  | some FnNode.otherFn =>
    simp [PrimaryExpression.Parse, magicStage, argsStage, identStage, identTail, literalStage, hbs, resultTd]
    rfl

/-- C3, witness. -/
theorem claim_C3_witness :
    resultTd (PrimaryExpression.Parse 5 6 none (some (FnNode.funcFn (some [])))
      (some ⟨1, []⟩) none none res0 ⟨"msg", some "msg", none, sp0⟩) =
      some (some magicMsgTd) :=
  claim_C3 5 6 none (some (FnNode.funcFn (some []))) 1 [] res0 sp0
    (by intro ps h; rcases h with h | h <;> simp_all)
    (by intro s h; simp at h)

/-- C4. -/
theorem claim_C4 (pid srcId : Int) (unitTd : Option TypeDescription)
    (fn : Option FnNode) (bid : Int) (pre post : List Statement)
    (v : VariableDeclarationStmt) (d : Declaration) (dtd : TypeDescription)
    (resolve : Resolver) (sp : CtxSpan) (nm txt : String)
    (hd : findDecl nm v.declarations = some d)
    (htn : d.typeName = some (some dtd))
    (hpre : ∀ s ∈ pre, stmtSafeB nm s = true)
    (hpost : ∀ s ∈ post, stmtDeclaresB nm s = false) :
    resultRefDecl (PrimaryExpression.Parse pid srcId unitTd fn
      (some ⟨bid, pre ++ Statement.varDecl v :: post⟩) none none resolve
      ⟨txt, some nm, none, sp⟩) = some v.id ∧
    resultTd (PrimaryExpression.Parse pid srcId unitTd fn
      (some ⟨bid, pre ++ Statement.varDecl v :: post⟩) none none resolve
      ⟨txt, some nm, none, sp⟩) = some (some dtd) := by
  have hbs : ∀ acc, bodyScanE nm acc (pre ++ Statement.varDecl v :: post) =
      pure (some dtd, v.id) :=
    fun acc => bodyScanE_last_match nm v d (some dtd) pre post hd htn hpost acc hpre
  refine ⟨?_, ?_⟩ <;>
  · rcases Classical.em (nm = "_") with hnm | hnm
    · subst hnm
      match fn with
      | none =>
        simp [PrimaryExpression.Parse, magicStage, argsStage, identStage, identTail, literalStage, hbs, resultTd, resultRefDecl]; try rfl
      | some (FnNode.ctorFn ps) =>
        simp [PrimaryExpression.Parse, magicStage, argsStage, identStage, identTail, literalStage, hbs, resultTd, resultRefDecl]; try rfl
      | some (FnNode.funcFn none) =>
        simp [PrimaryExpression.Parse, magicStage, argsStage, identStage, identTail, literalStage, hbs, resultTd, resultRefDecl]; try rfl
      | some (FnNode.funcFn (some ps)) =>
        simp [PrimaryExpression.Parse, magicStage, argsStage, identStage, identTail, literalStage, hbs, resultTd, resultRefDecl]; try rfl
      | some FnNode.otherFn =>
        simp [PrimaryExpression.Parse, magicStage, argsStage, identStage, identTail, literalStage, hbs, resultTd, resultRefDecl]; try rfl
    · match fn with
      | none =>
        simp [PrimaryExpression.Parse, magicStage, argsStage, identStage, identTail, literalStage, hbs, resultTd, resultRefDecl, hnm]; try rfl
      | some (FnNode.ctorFn ps) =>
        simp [PrimaryExpression.Parse, magicStage, argsStage, identStage, identTail, literalStage, hbs, resultTd, resultRefDecl, hnm]; try rfl
      | some (FnNode.funcFn none) =>
        simp [PrimaryExpression.Parse, magicStage, argsStage, identStage, identTail, literalStage, hbs, resultTd, resultRefDecl, hnm]; try rfl
      | some (FnNode.funcFn (some ps)) =>
        simp [PrimaryExpression.Parse, magicStage, argsStage, identStage, identTail, literalStage, hbs, resultTd, resultRefDecl, hnm]; try rfl
      | some FnNode.otherFn =>
        simp [PrimaryExpression.Parse, magicStage, argsStage, identStage, identTail, literalStage, hbs, resultTd, resultRefDecl, hnm]; try rfl

/-- C4, witness. -/
theorem claim_C4_witness :
    resultRefDecl (PrimaryExpression.Parse 5 6 none
      (some (FnNode.funcFn (some [⟨100, "x", some (some ⟨"t_address", "address"⟩)⟩])))
      (some ⟨1, [Statement.varDecl ⟨7, [⟨"x", some (some ⟨"t_bool", "bool"⟩)⟩]⟩] ++
        Statement.varDecl ⟨9, [⟨"x", some (some ⟨"t_uint256", "uint256"⟩)⟩]⟩ :: []⟩)
      none none res0 ⟨"x", some "x", none, sp0⟩) = some (9 : Int) ∧
    resultTd (PrimaryExpression.Parse 5 6 none
      (some (FnNode.funcFn (some [⟨100, "x", some (some ⟨"t_address", "address"⟩)⟩])))
      (some ⟨1, [Statement.varDecl ⟨7, [⟨"x", some (some ⟨"t_bool", "bool"⟩)⟩]⟩] ++
        Statement.varDecl ⟨9, [⟨"x", some (some ⟨"t_uint256", "uint256"⟩)⟩]⟩ :: []⟩)
      none none res0 ⟨"x", some "x", none, sp0⟩) =
      some (some ⟨"t_uint256", "uint256"⟩) :=
  claim_C4 5 6 none
    (some (FnNode.funcFn (some [⟨100, "x", some (some ⟨"t_address", "address"⟩)⟩])))
    1 [Statement.varDecl ⟨7, [⟨"x", some (some ⟨"t_bool", "bool"⟩)⟩]⟩] []
    ⟨9, [⟨"x", some (some ⟨"t_uint256", "uint256"⟩)⟩]⟩
    ⟨"x", some (some ⟨"t_uint256", "uint256"⟩)⟩ ⟨"t_uint256", "uint256"⟩
    res0 sp0 "x" "x" rfl rfl (by decide) (by decide)

/-- C5, counterexample. -/
theorem claim_C5_counterexample :
    resultRefDecl (PrimaryExpression.Parse 5 6 none
      (some (FnNode.funcFn (some [⟨100, "x", some (some ⟨"t_uint256", "uint256"⟩)⟩])))
      (some ⟨1, []⟩) none none res0 ⟨"x", some "x", none, sp0⟩) = some 5 ∧
    (5 : Int) ≠ 100 :=
  ⟨rfl, by decide⟩

/-- C5, amended. -/
theorem claim_C5 (pid srcId : Int) (unitTd : Option TypeDescription)
    (params : List Parameter) (bid : Int) (stmts : List Statement)
    (resolve : Resolver) (sp : CtxSpan) (nm txt : String)
    (hmsg : txt ≠ "msg") (hblk : txt ≠ "block") (hthis : txt ≠ "this")
    (hpt : ∀ prm ∈ params, prm.name = nm → ∃ td, prm.typeName = some (some td))
    (hbt : ∀ s ∈ stmts, stmtTypedB nm s = true) :
    resultRefDecl (PrimaryExpression.Parse pid srcId unitTd
      (some (FnNode.funcFn (some params))) (some ⟨bid, stmts⟩) none none resolve
      ⟨txt, some nm, none, sp⟩) =
      some (expectedRefDecl pid nm params stmts resolve) := by
  have hbt2 := bodyScanE_typed nm stmts hbt
  cases hany : params.any (fun prm => prm.name = nm) with
  | false =>
    have hnomatch : ∀ prm ∈ params, prm.name ≠ nm := by
      intro prm hin
      have := List.any_eq_false.mp hany prm hin
      simpa using this
    have hps := paramScan_no_match pid nm
      ((none : Option TypeDescription), (0 : Int)) params hnomatch
    cases hl : lastLocalMatch nm stmts with
    | some v =>
      have h2 := hbt2 ((none : Option TypeDescription), (0 : Int))
      simp only [hl] at h2
      obtain ⟨tdb, hsc⟩ := h2
      rcases Classical.em (nm = "_") with hnm | hnm
      · subst hnm
        simp [PrimaryExpression.Parse, magicStage, argsStage, identStage, identTail, literalStage, hmsg, hblk, hthis, hps, hsc, resultRefDecl,
          expectedRefDecl, hl]; try rfl
        try rfl
      · simp [PrimaryExpression.Parse, magicStage, argsStage, identStage, identTail, literalStage, hmsg, hblk, hthis, hps, hsc, resultRefDecl,
          expectedRefDecl, hl, hnm]; try rfl
    | none =>
      have h2 := hbt2 ((none : Option TypeDescription), (0 : Int))
      simp only [hl] at h2
      cases hres : resolve nm with
      | some rr =>
        rcases Classical.em (nm = "_") with hnm | hnm
        · subst hnm
          simp [PrimaryExpression.Parse, magicStage, argsStage, identStage, identTail, literalStage, hmsg, hblk, hthis, hps, h2, hres,
            resultRefDecl, expectedRefDecl, hl, hany]; try rfl
          try rfl
        · simp [PrimaryExpression.Parse, magicStage, argsStage, identStage, identTail, literalStage, hmsg, hblk, hthis, hps, h2, hres,
            resultRefDecl, expectedRefDecl, hl, hany, hnm]; try rfl
      | none =>
        rcases Classical.em (nm = "_") with hnm | hnm
        · subst hnm
          simp [PrimaryExpression.Parse, magicStage, argsStage, identStage, identTail, literalStage, hmsg, hblk, hthis, hps, h2, hres,
            resultRefDecl, expectedRefDecl, hl, hany]; try rfl
          try rfl
        · simp [PrimaryExpression.Parse, magicStage, argsStage, identStage, identTail, literalStage, hmsg, hblk, hthis, hps, h2, hres,
            resultRefDecl, expectedRefDecl, hl, hany, hnm]; try rfl
  | true =>
    obtain ⟨tdp, hps⟩ := paramScan_any_typed pid nm
      ((none : Option TypeDescription), (0 : Int)) params hany hpt
    cases hl : lastLocalMatch nm stmts with
    | some v =>
      have h2 := hbt2 ((some tdp : Option TypeDescription), pid)
      simp only [hl] at h2
      obtain ⟨tdb, hsc⟩ := h2
      rcases Classical.em (nm = "_") with hnm | hnm
      · subst hnm
        simp [PrimaryExpression.Parse, magicStage, argsStage, identStage, identTail, literalStage, hmsg, hblk, hthis, hps, hsc, resultRefDecl,
          expectedRefDecl, hl]; try rfl
        try rfl
      · simp [PrimaryExpression.Parse, magicStage, argsStage, identStage, identTail, literalStage, hmsg, hblk, hthis, hps, hsc, resultRefDecl,
          expectedRefDecl, hl, hnm]; try rfl
    | none =>
      have h2 := hbt2 ((some tdp : Option TypeDescription), pid)
      simp only [hl] at h2
      rcases Classical.em (nm = "_") with hnm | hnm
      · subst hnm
        simp [PrimaryExpression.Parse, magicStage, argsStage, identStage, identTail, literalStage, hmsg, hblk, hthis, hps, h2, resultRefDecl,
          expectedRefDecl, hl, hany]; try rfl
        try rfl
      · simp [PrimaryExpression.Parse, magicStage, argsStage, identStage, identTail, literalStage, hmsg, hblk, hthis, hps, h2, resultRefDecl,
          expectedRefDecl, hl, hany, hnm]; try rfl

/-- C5, witness. -/
theorem claim_C5_witness :
    resultRefDecl (PrimaryExpression.Parse 5 6 none
      (some (FnNode.funcFn (some [⟨100, "x", some (some ⟨"t_uint256", "uint256"⟩)⟩])))
      (some ⟨1, []⟩) none none res0 ⟨"x", some "x", none, sp0⟩) =
      some (expectedRefDecl 5 "x" [⟨100, "x", some (some ⟨"t_uint256", "uint256"⟩)⟩] [] res0) :=
  claim_C5 5 6 none [⟨100, "x", some (some ⟨"t_uint256", "uint256"⟩)⟩] 1 [] res0 sp0
    "x" "x" (by decide) (by decide) (by decide)
    (by
      intro prm h hn
      simp only [List.mem_singleton] at h
      subst h
      exact ⟨⟨"t_uint256", "uint256"⟩, rfl⟩)
    (by intro s h; simp at h)

/-- C6, counterexample. -/
theorem claim_C6_counterexample :
    resultNodeType (PrimaryExpression.Parse 5 6 none none
      (some ⟨1, [Statement.varDecl ⟨9, [⟨"_", some (some ⟨"t_uint256", "uint256"⟩)⟩]⟩]⟩)
      none none res0 ⟨"_", some "_", none, sp0⟩) =
      some NodeType.PLACEHOLDER_STATEMENT ∧
    resultRefDecl (PrimaryExpression.Parse 5 6 none none
      (some ⟨1, [Statement.varDecl ⟨9, [⟨"_", some (some ⟨"t_uint256", "uint256"⟩)⟩]⟩]⟩)
      none none res0 ⟨"_", some "_", none, sp0⟩) = some 9 ∧
    (9 : Int) ≠ 0 ∧
    resultTd (PrimaryExpression.Parse 5 6 none none
      (some ⟨1, [Statement.varDecl ⟨9, [⟨"_", some (some ⟨"t_uint256", "uint256"⟩)⟩]⟩]⟩)
      none none res0 ⟨"_", some "_", none, sp0⟩) =
      some (some ⟨"t_uint256", "uint256"⟩) :=
  ⟨rfl, rfl, by decide, rfl⟩

/-- C6, amended. -/
theorem claim_C6 (pid srcId : Int) (unitTd : Option TypeDescription)
    (bid : Int) (stmts : List Statement)
    (lit : Option LiteralContext) (resolve : Resolver) (sp : CtxSpan)
    (hb : ∀ s ∈ stmts, stmtSafeB "_" s = true) :
    resultNodeType (PrimaryExpression.Parse pid srcId unitTd none (some ⟨bid, stmts⟩)
      none none resolve ⟨"_", some "_", lit, sp⟩) =
      some NodeType.PLACEHOLDER_STATEMENT ∧
    resultKind (PrimaryExpression.Parse pid srcId unitTd none (some ⟨bid, stmts⟩)
      none none resolve ⟨"_", some "_", lit, sp⟩) = some NodeType.UNSPECIFIED ∧
    resultIsPure (PrimaryExpression.Parse pid srcId unitTd none (some ⟨bid, stmts⟩)
      none none resolve ⟨"_", some "_", lit, sp⟩) = some false ∧
    resultValue (PrimaryExpression.Parse pid srcId unitTd none (some ⟨bid, stmts⟩)
      none none resolve ⟨"_", some "_", lit, sp⟩) = some "" := by
  obtain ⟨r, hsc⟩ := bodyScanE_safe "_"
    ((none : Option TypeDescription), (0 : Int)) stmts hb
  rcases r with ⟨r1, r2⟩
  cases r1 with
  | some tdv =>
    simp [PrimaryExpression.Parse, magicStage, argsStage, identStage, identTail, literalStage, hsc, resultNodeType, resultKind,
      resultIsPure, resultValue]
    try exact ⟨rfl, rfl, rfl, rfl⟩
  | none =>
    cases hres : resolve "_" with
    | none =>
      simp [PrimaryExpression.Parse, magicStage, argsStage, identStage, identTail, literalStage, hsc, hres, resultNodeType, resultKind,
        resultIsPure, resultValue]
      try exact ⟨rfl, rfl, rfl, rfl⟩
    | some rr =>
      simp [PrimaryExpression.Parse, magicStage, argsStage, identStage, identTail, literalStage, hsc, hres, resultNodeType, resultKind,
        resultIsPure, resultValue]
      try exact ⟨rfl, rfl, rfl, rfl⟩

/-- C6, witness. -/
theorem claim_C6_witness :
    resultNodeType (PrimaryExpression.Parse 5 6 none none (some ⟨1, []⟩)
      none none res0 ⟨"_", some "_", none, sp0⟩) =
      some NodeType.PLACEHOLDER_STATEMENT ∧
    resultKind (PrimaryExpression.Parse 5 6 none none (some ⟨1, []⟩)
      none none res0 ⟨"_", some "_", none, sp0⟩) = some NodeType.UNSPECIFIED ∧
    resultIsPure (PrimaryExpression.Parse 5 6 none none (some ⟨1, []⟩)
      none none res0 ⟨"_", some "_", none, sp0⟩) = some false ∧
    resultValue (PrimaryExpression.Parse 5 6 none none (some ⟨1, []⟩)
      none none res0 ⟨"_", some "_", none, sp0⟩) = some "" :=
  claim_C6 5 6 none 1 [] none res0 sp0 (by intro s h; simp at h)

theorem resultTd_pure (p : PrimaryExpression) :
    resultTd (pure p) = some p.typeDescription := rfl

theorem resultTd_ok (p : PrimaryExpression) :
    resultTd (Except.ok p) = some p.typeDescription := rfl

theorem resultRefDecl_pure (p : PrimaryExpression) :
    resultRefDecl (pure p) = some p.referencedDeclaration := rfl

theorem resultRefDecl_ok (p : PrimaryExpression) :
    resultRefDecl (Except.ok p) = some p.referencedDeclaration := rfl

theorem resultNodeType_pure (p : PrimaryExpression) :
    resultNodeType (pure p) = some p.nodeType := rfl

theorem resultKind_pure (p : PrimaryExpression) :
    resultKind (pure p) = some p.kind := rfl

theorem resultIsPure_pure (p : PrimaryExpression) :
    resultIsPure (pure p) = some p.isPure := rfl

theorem resultValue_pure (p : PrimaryExpression) :
    resultValue (pure p) = some p.value := rfl

/-- C2, counterexample. -/
theorem claim_C2_counterexample :
    resultTd (PrimaryExpression.Parse 5 6 none none (some ⟨1, []⟩) none none res0
      (numberCtx "12.5" sp0)) =
      some (some ⟨"t_rational_125_by_10", "fixed_const 12.5"⟩) ∧
    ("t_rational_125_by_10" : String) ≠ "rational_125_by_10" :=
  ⟨rfl, by decide⟩

/-- C2, amended. -/
theorem claim_C2 :
    (∀ (pid srcId bid : Int) (unitTd : Option TypeDescription) (fn : Option FnNode)
       (stmts : List Statement) (resolve : Resolver) (sp : CtxSpan) (a b : List Char),
       (∀ c ∈ a, c.isDigit = true) → (∀ c ∈ b, c.isDigit = true) → b ≠ [] →
       (digitsVal (a ++ b) : Int) ≤ int64Max → b.length ≤ 18 →
       resultTd (PrimaryExpression.Parse pid srcId unitTd fn (some ⟨bid, stmts⟩)
         none none resolve (numberCtx (String.mk (a ++ '.' :: b)) sp)) =
         some (some ⟨"t_rational_" ++ toString (digitsVal (a ++ b)) ++ "_by_" ++
           toString ((10 : Nat) ^ b.length),
           "fixed_const " ++ String.mk (a ++ '.' :: b)⟩)) ∧
    (∀ (pid srcId bid : Int) (unitTd : Option TypeDescription) (fn : Option FnNode)
       (stmts : List Statement) (resolve : Resolver) (sp : CtxSpan) (a : List Char),
       (∀ c ∈ a, c.isDigit = true) → a ≠ [] →
       (digitsVal a : Int) ≤ int64Max →
       resultTd (PrimaryExpression.Parse pid srcId unitTd fn (some ⟨bid, stmts⟩)
         none none resolve (numberCtx (String.mk a) sp)) =
         some (some ⟨"t_rational_" ++ toString (digitsVal a) ++ "_by_1",
           "int_const " ++ String.mk a⟩)) := by
  constructor
  · intro pid srcId bid unitTd fn stmts resolve sp a b ha hb hbne hle _h18
    have hnda : '.' ∉ a := fun hm => by
      have := ha '.' hm; exact absurd this (by decide)
    have hndb : '.' ∉ b := fun hm => by
      have := hb '.' hm; exact absurd this (by decide)
    have hclean : trimSpace (stripQuotes (String.mk (a ++ '.' :: b))) =
        String.mk (a ++ '.' :: b) := by
      apply clean_id
      intro c hc
      rcases List.mem_append.mp hc with hc | hc
      · exact Or.inl (ha c hc)
      · rcases List.mem_cons.mp hc with hc | hc
        · exact Or.inr hc
        · exact Or.inl (hb c hc)
    have hsplit : splitDotChars (a ++ '.' :: b) = [a, b] := by
      rw [splitDot_append a b hnda, splitDot_no_dot b hndb]
    have habne : a ++ b ≠ [] := by
      intro he; exact hbne (List.append_eq_nil.mp he).2
    have hall : (a ++ b).all Char.isDigit = true := by
      rw [List.all_eq_true]
      intro c hc
      rcases List.mem_append.mp hc with hc | hc
      · exact ha c hc
      · exact hb c hc
    have hatoi : goAtoi (String.mk (a ++ b)) = (digitsVal (a ++ b) : Int) :=
      goAtoi_digits (a ++ b) habne hall hle
    have hpow : toString (powTenInt b.length) = toString ((10 : Nat) ^ b.length) := by
      unfold powTenInt
      rw [show ((10 : Int) ^ b.length) = (((10 : Nat) ^ b.length : Nat) : Int) by push_cast; ring,
        toString_int_ofNat]
    simp [PrimaryExpression.Parse, magicStage, argsStage, identStage, identTail, literalStage, numberCtx, resultTd_pure, resultTd_ok, hclean,
      mkString_data, contains_dot_mid, hsplit, hatoi, hpow, toString_int_ofNat,
      apply_ite PrimaryExpression.name]
  · intro pid srcId bid unitTd fn stmts resolve sp a ha hane hle
    have hnda : '.' ∉ a := fun hm => by
      have := ha '.' hm; exact absurd this (by decide)
    have hclean : trimSpace (stripQuotes (String.mk a)) = String.mk a := by
      apply clean_id
      intro c hc; exact Or.inl (ha c hc)
    have hall : a.all Char.isDigit = true := by
      rw [List.all_eq_true]; intro c hc; exact ha c hc
    have hatoi : goAtoi (String.mk a) = (digitsVal a : Int) :=
      goAtoi_digits a hane hall hle
    simp [PrimaryExpression.Parse, magicStage, argsStage, identStage, identTail, literalStage, numberCtx, resultTd_pure, resultTd_ok, hclean,
      mkString_data, contains_no_dot a hnda, hnda, hatoi, toString_int_ofNat,
      apply_ite PrimaryExpression.name]

/-- C2, witness. -/
theorem claim_C2_witness :
    resultTd (PrimaryExpression.Parse 5 6 none none (some ⟨1, []⟩) none none res0
      (numberCtx (String.mk (['1', '2'] ++ '.' :: ['5'])) sp0)) =
      some (some ⟨"t_rational_" ++ toString (digitsVal (['1', '2'] ++ ['5'])) ++ "_by_" ++
        toString ((10 : Nat) ^ (['5'] : List Char).length),
        "fixed_const " ++ String.mk (['1', '2'] ++ '.' :: ['5'])⟩) ∧
    resultTd (PrimaryExpression.Parse 5 6 none none (some ⟨1, []⟩) none none res0
      (numberCtx (String.mk ['4', '2']) sp0)) =
      some (some ⟨"t_rational_" ++ toString (digitsVal ['4', '2']) ++ "_by_1",
        "int_const " ++ String.mk ['4', '2']⟩) :=
  ⟨claim_C2.1 5 6 1 none none [] res0 sp0 ['1', '2'] ['5']
      (by decide) (by decide) (by decide) (by decide) (by decide),
   claim_C2.2 5 6 1 none none [] res0 sp0 ['4', '2']
      (by decide) (by decide) (by decide)⟩

/-- C10. -/
theorem claim_C10 :
    (∀ (pid srcId bid : Int) (unitTd : Option TypeDescription) (fn : Option FnNode)
       (stmts : List Statement) (resolve : Resolver) (sp : CtxSpan) (lex : String),
       trimSpace (stripQuotes lex) = lex →
       '.' ∉ lex.data →
       ((goSign lex.data).2.isEmpty = true ∨ (goSign lex.data).2.all Char.isDigit = false) →
       resultTd (PrimaryExpression.Parse pid srcId unitTd fn (some ⟨bid, stmts⟩)
         none none resolve (numberCtx lex sp)) =
         some (some ⟨"t_rational_0_by_1", "int_const " ++ lex⟩)) ∧
    (∀ (pid srcId bid : Int) (unitTd : Option TypeDescription) (fn : Option FnNode)
       (stmts : List Statement) (resolve : Resolver) (sp : CtxSpan) (a : List Char),
       (∀ c ∈ a, c.isDigit = true) → a ≠ [] → int64Max < (digitsVal a : Int) →
       resultTd (PrimaryExpression.Parse pid srcId unitTd fn (some ⟨bid, stmts⟩)
         none none resolve (numberCtx (String.mk a) sp)) =
         some (some ⟨"t_rational_9223372036854775807_by_1",
           "int_const " ++ String.mk a⟩)) := by
  constructor
  · intro pid srcId bid unitTd fn stmts resolve sp lex hclean hdot hbad
    have hatoi : goAtoi lex = 0 := goAtoi_syntax_err lex hbad
    have hzero : toString (0 : Int) = "0" := rfl
    simp [PrimaryExpression.Parse, magicStage, argsStage, identStage, identTail, literalStage, numberCtx, resultTd_pure, resultTd_ok, hclean,
      contains_no_dot lex.data hdot, hdot, hatoi, hzero,
      apply_ite PrimaryExpression.name]
  · intro pid srcId bid unitTd fn stmts resolve sp a ha hane hgt
    have hnda : '.' ∉ a := fun hm => by
      have := ha '.' hm; exact absurd this (by decide)
    have hclean : trimSpace (stripQuotes (String.mk a)) = String.mk a := by
      apply clean_id
      intro c hc; exact Or.inl (ha c hc)
    have hall : a.all Char.isDigit = true := by
      rw [List.all_eq_true]; intro c hc; exact ha c hc
    have hatoi : goAtoi (String.mk a) = int64Max :=
      goAtoi_digits_clamp a hane hall hgt
    have hmax : toString int64Max = "9223372036854775807" := rfl
    simp [PrimaryExpression.Parse, magicStage, argsStage, identStage, identTail, literalStage, numberCtx, resultTd_pure, resultTd_ok, hclean,
      mkString_data, contains_no_dot a hnda, hnda, hatoi, hmax,
      apply_ite PrimaryExpression.name]

/-- C10, witness. -/
theorem claim_C10_witness :
    resultTd (PrimaryExpression.Parse 5 6 none none (some ⟨1, []⟩) none none res0
      (numberCtx "0x10" sp0)) =
      some (some ⟨"t_rational_0_by_1", "int_const " ++ "0x10"⟩) ∧
    resultTd (PrimaryExpression.Parse 5 6 none none (some ⟨1, []⟩) none none res0
      (numberCtx (String.mk ['9', '9', '9', '9', '9', '9', '9', '9', '9', '9',
        '9', '9', '9', '9', '9', '9', '9', '9', '9']) sp0)) =
      some (some ⟨"t_rational_9223372036854775807_by_1",
        "int_const " ++ String.mk ['9', '9', '9', '9', '9', '9', '9', '9', '9', '9',
          '9', '9', '9', '9', '9', '9', '9', '9', '9']⟩) :=
  ⟨claim_C10.1 5 6 1 none none [] res0 sp0 "0x10" (by decide) (by decide)
      (Or.inr (by decide)),
   claim_C10.2 5 6 1 none none [] res0 sp0
      ['9', '9', '9', '9', '9', '9', '9', '9', '9', '9',
       '9', '9', '9', '9', '9', '9', '9', '9', '9']
      (by decide) (by decide) (by decide)⟩

/-- C9. -/
theorem claim_C9 :
    (∀ (pid srcId bid : Int) (unitTd : Option TypeDescription) (fn : Option FnNode)
       (stmts : List Statement) (resolve : Resolver) (sp : CtxSpan) (txt h : String),
       PrimaryExpression.Parse pid srcId unitTd fn (some ⟨bid, stmts⟩) none none resolve
         ⟨txt, none, some ⟨none, none, none, some h⟩, sp⟩ =
         Except.error GoPanic.nilDeref) ∧
    (∀ (pid srcId bid : Int) (unitTd : Option TypeDescription) (fn : Option FnNode)
       (stmts : List Statement) (resolve : Resolver) (sp : CtxSpan) (txt h s : String),
       resultValue (PrimaryExpression.Parse pid srcId unitTd fn (some ⟨bid, stmts⟩)
         none none resolve ⟨txt, none, some ⟨none, some s, none, some h⟩, sp⟩) =
         some (trimSpace (stripQuotes s)) ∧
       resultKind (PrimaryExpression.Parse pid srcId unitTd fn (some ⟨bid, stmts⟩)
         none none resolve ⟨txt, none, some ⟨none, some s, none, some h⟩, sp⟩) =
         some NodeType.STRING ∧
       resultTd (PrimaryExpression.Parse pid srcId unitTd fn (some ⟨bid, stmts⟩)
         none none resolve ⟨txt, none, some ⟨none, some s, none, some h⟩, sp⟩) =
         some (some ⟨"t_string_literal", "literal_string " ++ s⟩)) := by
  constructor
  · intro pid srcId bid unitTd fn stmts resolve sp txt h
    simp [PrimaryExpression.Parse, magicStage, argsStage, identStage, identTail, literalStage, apply_ite PrimaryExpression.name]
    rfl
  · intro pid srcId bid unitTd fn stmts resolve sp txt h s
    refine ⟨?_, ?_, ?_⟩ <;>
      simp [PrimaryExpression.Parse, magicStage, argsStage, identStage, identTail, literalStage, resultValue_pure, resultKind_pure,
        resultTd_pure, resultTd_ok, apply_ite PrimaryExpression.name]

/-- C9, witness. -/
theorem claim_C9_witness :
    PrimaryExpression.Parse 5 6 none none (some ⟨1, []⟩) none none res0
      ⟨"hex\"aa\"", none, some ⟨none, none, none, some "hex\"aa\""⟩, sp0⟩ =
      Except.error GoPanic.nilDeref ∧
    resultValue (PrimaryExpression.Parse 5 6 none none (some ⟨1, []⟩) none none res0
      ⟨"hex\"aa\"", none, some ⟨none, some "\"aa\"", none, some "hex\"aa\""⟩, sp0⟩) =
      some (trimSpace (stripQuotes "\"aa\"")) :=
  ⟨claim_C9.1 5 6 1 none none [] res0 sp0 "hex\"aa\"" "hex\"aa\"",
   (claim_C9.2 5 6 1 none none [] res0 sp0 "hex\"aa\"" "hex\"aa\"" "\"aa\"").1⟩

theorem withData_setTd (t : TypeNameNode) (td : Option TypeDescription) :
    (t.withData (fun d => { d with typeDescription := td })).typeDescription = td := by
  cases t; rfl

/-- C1, counterexample. -/
theorem claim_C1_counterexample :
    tnResultTd (TypeNameParse norm0 res0 1 0 sp0
      [TypeNameChild.mappingChild (MappingKeyCtx.elementary "address" sp0)
        (TypeNameCtx.elementary "uint256" sp0)]) =
      some (some ⟨"t_mapping_$t_address_$t_uint256$", "mapping(address => uint256)"⟩) ∧
    ("t_mapping_$t_address_$t_uint256$" : String) ≠ "mapping_$t_address_$t_uint256$" :=
  ⟨rfl, by decide⟩

/-- C1, amended. -/
theorem claim_C1 (normalize : Normalizer) (resolve : Resolver) (t : TypeNameNode)
    (c : Int) (key : MappingKeyCtx) (value : TypeNameCtx)
    (kNode : TypeNameNode) (c1 : Int) (vNode t2 : TypeNameNode) (c2 : Int)
    (ktd vtd : TypeDescription)
    (hkr : genKey normalize resolve c t.id key = (kNode, c1))
    (hk : kNode.typeDescription = some ktd)
    (hvr : genTN normalize resolve (t.withKeyType (some kNode)) c1 t.id value =
      Except.ok (vNode, t2, c2))
    (hv : vNode.typeDescription = some vtd) :
    ∃ tout, parseMappingTypeNameFn normalize resolve t c key value =
        Except.ok (tout, c2) ∧
      tout.typeDescription = some ⟨"t_mapping_$" ++ ktd.typeIdentifier ++ "_$" ++
        vtd.typeIdentifier ++ "$",
        "mapping(" ++ kNode.name ++ " => " ++ vNode.name ++ ")"⟩ := by
  have heq : parseMappingTypeNameFn normalize resolve t c key value =
      Except.ok ((t2.withValueType (some vNode)).withData
        (fun d => { d with typeDescription := some ⟨"t_mapping_$" ++ ktd.typeIdentifier ++
          "_$" ++ vtd.typeIdentifier ++ "$",
          "mapping(" ++ kNode.name ++ " => " ++ vNode.name ++ ")"⟩ }), c2) := by
    unfold parseMappingTypeNameFn
    simp only [hkr]
    simp only [hvr, bind, Except.bind]
    simp [mappingComposite, hk, hv]
    rfl
  exact ⟨_, heq, withData_setTd _ _⟩

/-- Fixture receiver node for the C1 witness. -/
def tFix : TypeNameNode :=
  TypeNameNode.mk
    ⟨1, NodeType.UNSPECIFIED, mkSrcNode 2 sp0 0, "", none, 0,
      Mutability.UNSPECIFIED, none⟩ none none

/-- Fixture key node produced by `genKey` for the C1 witness. -/
def kNodeFix : TypeNameNode :=
  TypeNameNode.mk
    ⟨3, NodeType.ELEMENTARY_TYPE_NAME, mkSrcNode 4 sp0 1, "address",
      some ⟨"t_address", "address"⟩, 0, Mutability.UNSPECIFIED, none⟩ none none

/-- Fixture value node produced by `genTN` for the C1 witness. -/
def vNodeFix : TypeNameNode :=
  TypeNameNode.mk
    ⟨5, NodeType.ELEMENTARY_TYPE_NAME, mkSrcNode 6 sp0 1, "uint256",
      some ⟨"t_uint256", "uint256"⟩, 0, Mutability.UNSPECIFIED, none⟩ none none

/-- C1, witness. -/
theorem claim_C1_witness :
    ∃ tout, parseMappingTypeNameFn norm0 res0 tFix 3
        (MappingKeyCtx.elementary "address" sp0)
        (TypeNameCtx.elementary "uint256" sp0) = Except.ok (tout, 7) ∧
      tout.typeDescription = some ⟨"t_mapping_$" ++
        (⟨"t_address", "address"⟩ : TypeDescription).typeIdentifier ++ "_$" ++
        (⟨"t_uint256", "uint256"⟩ : TypeDescription).typeIdentifier ++ "$",
        "mapping(" ++ kNodeFix.name ++ " => " ++ vNodeFix.name ++ ")"⟩ :=
  claim_C1 norm0 res0 tFix 3 (MappingKeyCtx.elementary "address" sp0)
    (TypeNameCtx.elementary "uint256" sp0) kNodeFix 5 vNodeFix
    (tFix.withKeyType (some kNodeFix)) 7 ⟨"t_address", "address"⟩
    ⟨"t_uint256", "uint256"⟩ rfl rfl rfl rfl

/-- C8. -/
theorem claim_C8 :
    tnErr (TypeNameParse norm0 res0 1 0 sp0
      [TypeNameChild.mappingChild (MappingKeyCtx.path "Foo" sp0)
        (TypeNameCtx.elementary "uint256" sp0)]) = some GoPanic.nilDeref ∧
    tnErr (TypeNameParse norm0 res0 1 0 sp0
      [TypeNameChild.typeNameChild
        (TypeNameCtx.functionType "function()externalreturns(bool)" sp0)]) =
      some GoPanic.unsupportedFunctionType ∧
    tnErr (TypeNameParse norm0 res0 1 0 sp0 [TypeNameChild.otherChild]) =
      some GoPanic.unknownTypeNameChild ∧
    esErr (parseExpressionStatementFn 5 6 none none (some ⟨1, []⟩) res0
      [ExprStmtChild.otherChild]) = some GoPanic.unknownExpressionChild ∧
    esResult (parseExpressionStatementFn 5 6 none none (some ⟨1, []⟩) res0
      [ExprStmtChild.terminalChild ";"]) = some none ∧
    tnErr (TypeNameParse norm0 res0 1 0 sp0 [TypeNameChild.terminalChild "["]) = none :=
  ⟨rfl, rfl, rfl, rfl, rfl, rfl⟩

/-- The span-arithmetic invariant of the spec: derived length equals
`end - start + 1`. -/
def srcOk (s : SrcNode) : Prop := s.length = s.endPos - s.startPos + 1

/-- The invariant on an optional `PathNode`. -/
def pathSrcOk : Option PathNode → Prop
  | none => True
  | some pn => srcOk pn.src

mutual

/-- The span invariant holds on a `TypeName` node, its path node, and its
key/value children recursively. -/
def TypeNameNode.allSrcOk : TypeNameNode → Prop
  | TypeNameNode.mk d k v => srcOk d.src ∧ pathSrcOk d.pathNode ∧ optSrcOk k ∧ optSrcOk v

/-- The span invariant on an optional `TypeName` child. -/
def optSrcOk : Option TypeNameNode → Prop
  | none => True
  | some n => n.allSrcOk

end

theorem srcOk_mkSrcNode (id : Int) (sp : CtxSpan) (pi : Int) :
    srcOk (mkSrcNode id sp pi) := by
  simp [srcOk, mkSrcNode]

theorem allSrcOk_mk (d : TypeNameData) (k v : Option TypeNameNode) :
    (TypeNameNode.mk d k v).allSrcOk ↔
      (srcOk d.src ∧ pathSrcOk d.pathNode ∧ optSrcOk k ∧ optSrcOk v) := by
  rw [TypeNameNode.allSrcOk]

theorem genKey_allSrcOk (n : Normalizer) (r : Resolver) (c pid : Int)
    (k : MappingKeyCtx) : (genKey n r c pid k).1.allSrcOk := by
  cases k with
  | elementary text sp =>
    simp [genKey, allSrcOk_mk, pathSrcOk, optSrcOk, srcOk_mkSrcNode]
  | path text sp =>
    simp only [genKey]
    split <;> simp [allSrcOk_mk, pathSrcOk, optSrcOk, srcOk_mkSrcNode]

theorem parseTypeNamePath_allSrcOk (t : TypeNameNode) (c pnid : Int) (r : Resolver)
    (text : String) (sp psp : CtxSpan) (ht : t.allSrcOk) :
    (parseTypeNamePath t c pnid r text sp psp).1.allSrcOk := by
  cases t with
  | mk d k v =>
    rw [allSrcOk_mk] at ht
    simp only [parseTypeNamePath, TypeNameNode.withData]
    split <;>
      simp [allSrcOk_mk, pathSrcOk, srcOk_mkSrcNode, ht.2.2.1, ht.2.2.2]

theorem genTN_allSrcOk (n : Normalizer) (r : Resolver) (ctx : TypeNameCtx) :
    ∀ (t : TypeNameNode) (c pid : Int) (out : TypeNameNode × TypeNameNode × Int),
      t.allSrcOk → genTN n r t c pid ctx = Except.ok out →
      out.1.allSrcOk ∧ out.2.1.allSrcOk := by
  induction ctx with
  | elementary text sp =>
    intro t c pid out ht h
    simp only [genTN, pure, Except.pure] at h
    cases h
    exact ⟨by simp [allSrcOk_mk, pathSrcOk, optSrcOk, srcOk_mkSrcNode], ht⟩
  | functionType text sp =>
    intro t c pid out ht h
    simp [genTN, throw, throwThe, MonadExceptOf.throw] at h
  | path text sp psp =>
    intro t c pid out ht h
    simp only [genTN, pure, Except.pure, bind, Except.bind] at h
    split at h <;>
    · cases h
      exact ⟨by simp [allSrcOk_mk, pathSrcOk, optSrcOk, srcOk_mkSrcNode],
        parseTypeNamePath_allSrcOk t (c + 2) pid r text sp psp ht⟩
  | mappingType text key value sp ih =>
    intro t c pid out ht h
    simp only [genTN, bind, Except.bind, pure, Except.pure] at h
    split at h
    · exact absurd h (by simp)
    · rename_i val heq
      rcases val with ⟨vNode, t1, c2⟩
      have hrec := ih t (genKey n r (c + 3) pid key).2 pid (vNode, t1, c2) ht heq
      simp only [mappingComposite] at h
      split at h
      all_goals cases h
      all_goals refine ⟨?_, hrec.2⟩
      all_goals rw [allSrcOk_mk]
      all_goals
        exact ⟨srcOk_mkSrcNode _ _ _, trivial,
          by simpa [optSrcOk] using genKey_allSrcOk n r (c + 3) pid key,
          by simpa [optSrcOk] using hrec.1⟩

theorem withKeyType_allSrcOk (t k : TypeNameNode) (ht : t.allSrcOk)
    (hk : k.allSrcOk) : (t.withKeyType (some k)).allSrcOk := by
  cases t with
  | mk d ko vo =>
    rw [allSrcOk_mk] at ht
    simp only [TypeNameNode.withKeyType]
    rw [allSrcOk_mk]
    exact ⟨ht.1, ht.2.1, by simpa [optSrcOk] using hk, ht.2.2.2⟩

theorem withValueType_allSrcOk (t v : TypeNameNode) (ht : t.allSrcOk)
    (hv : v.allSrcOk) : (t.withValueType (some v)).allSrcOk := by
  cases t with
  | mk d ko vo =>
    rw [allSrcOk_mk] at ht
    simp only [TypeNameNode.withValueType]
    rw [allSrcOk_mk]
    exact ⟨ht.1, ht.2.1, ht.2.2.1, by simpa [optSrcOk] using hv⟩

theorem withData_setTd_allSrcOk (t : TypeNameNode) (td : Option TypeDescription)
    (ht : t.allSrcOk) :
    (t.withData (fun d => { d with typeDescription := td })).allSrcOk := by
  cases t with
  | mk d ko vo =>
    rw [allSrcOk_mk] at ht
    simp only [TypeNameNode.withData]
    rw [allSrcOk_mk]
    exact ⟨ht.1, ht.2.1, ht.2.2.1, ht.2.2.2⟩

theorem parseMappingTypeNameFn_allSrcOk (n : Normalizer) (r : Resolver)
    (t : TypeNameNode) (c : Int) (key : MappingKeyCtx) (value : TypeNameCtx)
    (out : TypeNameNode × Int) (ht : t.allSrcOk)
    (h : parseMappingTypeNameFn n r t c key value = Except.ok out) :
    out.1.allSrcOk := by
  simp only [parseMappingTypeNameFn, bind, Except.bind, pure, Except.pure] at h
  split at h
  · cases h
  · rename_i val heq
    rcases val with ⟨vNode, t2, c2⟩
    have ht1 : (t.withKeyType (some (genKey n r c t.id key).1)).allSrcOk :=
      withKeyType_allSrcOk t _ ht (genKey_allSrcOk n r c t.id key)
    have hrec := genTN_allSrcOk n r value _ _ _ _ ht1 heq
    simp only [mappingComposite] at h
    split at h
    all_goals cases h
    all_goals
      exact withData_setTd_allSrcOk _ _
        (withValueType_allSrcOk _ _ hrec.2 hrec.1)

theorem parseElementaryTypeNameFn_allSrcOk (n : Normalizer) (t : TypeNameNode)
    (text : String) (ht : t.allSrcOk) :
    (parseElementaryTypeNameFn n t text).allSrcOk := by
  cases t with
  | mk d ko vo =>
    rw [allSrcOk_mk] at ht
    simp only [parseElementaryTypeNameFn, TypeNameNode.withData]
    rw [allSrcOk_mk]
    exact ⟨ht.1, ht.2.1, ht.2.2.1, ht.2.2.2⟩

theorem parseIdentifierPathFn_allSrcOk (r : Resolver) (t : TypeNameNode) (c : Int)
    (text : String) (idSp : CtxSpan) (ht : t.allSrcOk) :
    (parseIdentifierPathFn r t c text idSp).1.allSrcOk := by
  cases t with
  | mk d ko vo =>
    rw [allSrcOk_mk] at ht
    simp only [parseIdentifierPathFn, TypeNameNode.withData]
    split <;>
    · rw [allSrcOk_mk]
      exact ⟨ht.1, by simp [pathSrcOk, srcOk_mkSrcNode], ht.2.2.1, ht.2.2.2⟩

theorem parseTypeNameFn_allSrcOk (n : Normalizer) (r : Resolver)
    (ctx : TypeNameCtx) (t : TypeNameNode) (c pnid : Int)
    (out : TypeNameNode × Int) (ht : t.allSrcOk)
    (h : parseTypeNameFn n r t c pnid ctx = Except.ok out) : out.1.allSrcOk := by
  cases ctx with
  | elementary text sp =>
    simp only [parseTypeNameFn, pure, Except.pure] at h
    cases h
    cases t with
    | mk d ko vo =>
      rw [allSrcOk_mk] at ht
      simp only [TypeNameNode.withData]
      rw [allSrcOk_mk]
      exact ⟨srcOk_mkSrcNode _ _ _, ht.2.1, ht.2.2.1, ht.2.2.2⟩
  | functionType text sp =>
    simp [parseTypeNameFn, throw, throwThe, MonadExceptOf.throw] at h
  | path text sp psp =>
    simp only [parseTypeNameFn, pure, Except.pure] at h
    cases h
    exact parseTypeNamePath_allSrcOk t c pnid r text sp psp ht
  | mappingType text key value sp =>
    simp only [parseTypeNameFn, bind, Except.bind, pure, Except.pure] at h
    split at h
    · cases h
    · rename_i val heq
      rcases val with ⟨vNode, t3, c2⟩
      have ht1 : (t.withData (fun d =>
          { d with
            name := text
            src := mkSrcNode c sp pnid
            nodeType := NodeType.MAPPING_TYPE_NAME })).allSrcOk := by
        cases t with
        | mk d ko vo =>
          rw [allSrcOk_mk] at ht
          simp only [TypeNameNode.withData]
          rw [allSrcOk_mk]
          exact ⟨srcOk_mkSrcNode _ _ _, ht.2.1, ht.2.2.1, ht.2.2.2⟩
      have ht2 := withKeyType_allSrcOk _ _ ht1
        (genKey_allSrcOk n r (c + 2)
          (t.withData (fun d =>
            { d with
              name := text
              src := mkSrcNode c sp pnid
              nodeType := NodeType.MAPPING_TYPE_NAME })).id key)
      have hrec := genTN_allSrcOk n r value _ _ _ _ ht2 heq
      simp only [mappingComposite] at h
      split at h
      all_goals cases h
      all_goals
        exact withData_setTd_allSrcOk _ _
          (withValueType_allSrcOk _ _ hrec.2 hrec.1)

theorem typeNameParseGo_allSrcOk (n : Normalizer) (r : Resolver) (pnid : Int)
    (children : List TypeNameChild) :
    ∀ (t : TypeNameNode) (c : Int) (out : TypeNameNode × Int),
      t.allSrcOk → typeNameParseGo n r pnid t c children = Except.ok out →
      out.1.allSrcOk := by
  induction children with
  | nil =>
    intro t c out ht h
    simp only [typeNameParseGo, pure, Except.pure] at h
    cases h
    exact ht
  | cons child rest ih =>
    intro t c out ht h
    cases child with
    | elementaryChild text sp =>
      simp only [typeNameParseGo] at h
      exact ih _ _ _ (parseElementaryTypeNameFn_allSrcOk n t text ht) h
    | mappingChild key value =>
      simp only [typeNameParseGo, bind, Except.bind] at h
      split at h
      · cases h
      · rename_i val heq
        exact ih _ _ _ (parseMappingTypeNameFn_allSrcOk n r t c key value val ht heq) h
    | identifierPathChild text sp =>
      simp only [typeNameParseGo] at h
      exact ih _ _ _ (parseIdentifierPathFn_allSrcOk r t c text sp ht) h
    | typeNameChild ctx =>
      simp only [typeNameParseGo, bind, Except.bind] at h
      split at h
      · cases h
      · rename_i val heq
        exact ih _ _ _ (parseTypeNameFn_allSrcOk n r ctx t c pnid val ht heq) h
    | terminalChild text =>
      simp only [typeNameParseGo] at h
      exact ih _ _ _ ht h
    | otherChild =>
      simp [typeNameParseGo, throw, throwThe, MonadExceptOf.throw] at h

theorem TypeNameParse_allSrcOk (n : Normalizer) (r : Resolver) (c pnid : Int)
    (sp : CtxSpan) (children : List TypeNameChild) (out : TypeNameNode × Int)
    (h : TypeNameParse n r c pnid sp children = Except.ok out) :
    out.1.allSrcOk := by
  have ht0 : (TypeNameNode.mk
      { id := c, nodeType := NodeType.UNSPECIFIED, src := mkSrcNode (c + 1) sp pnid,
        name := "", typeDescription := none, referencedDeclaration := 0,
        stateMutability := Mutability.UNSPECIFIED, pathNode := none }
      none none).allSrcOk := by
    rw [allSrcOk_mk]
    exact ⟨srcOk_mkSrcNode _ _ _, trivial, trivial, trivial⟩
  exact typeNameParseGo_allSrcOk n r pnid children _ _ _ ht0 h

theorem ite_empty_underscore {α : Sort u} (a b : α) :
    (if ("" : String) = "_" then a else b) = b := if_neg (by decide)

theorem ite_empty_boolname {α : Sort u} (a b : α) :
    (if (("" : String) = "true" ∨ ("" : String) = "false") then a else b) = b :=
  if_neg (by decide)

/-- The span invariant on a primary-expression translation outcome (crashes
vacuously satisfy it). -/
def okSrcOk : Except GoPanic PrimaryExpression → Prop
  | Except.ok p => srcOk p.src
  | Except.error _ => True

theorem magicStage_src (u : Option TypeDescription) (txt : String)
    (p : PrimaryExpression) : (magicStage u txt p).src = p.src := by
  simp [magicStage, apply_ite PrimaryExpression.src]

theorem argsStage_src (e : Option ExpNode) (p : PrimaryExpression) :
    (argsStage e p).src = p.src := by
  cases e <;> simp [argsStage, apply_ite PrimaryExpression.src]

theorem identTail_src (body : Option BodyNode) (resolve : Resolver) (nm : String)
    (pb q : PrimaryExpression) (h : identTail body resolve nm pb = Except.ok q) :
    q.src = pb.src := by
  cases body with
  | none =>
    simp only [identTail, bind, Except.bind, pure, Except.pure] at h
    cases htd : pb.typeDescription with
    | none =>
      rw [htd] at h
      cases hres : resolve nm with
      | none => rw [hres] at h; cases h; rfl
      | some rr => rw [hres] at h; cases h; rfl
    | some td => rw [htd] at h; cases h; rfl
  | some b =>
    simp only [identTail, bind, Except.bind, pure, Except.pure] at h
    cases hsc : bodyScanE nm (pb.typeDescription, pb.referencedDeclaration)
        b.statements with
    | error e => rw [hsc] at h; cases h
    | ok r =>
      rw [hsc] at h
      rcases r with ⟨tdr, rdr⟩
      cases tdr with
      | none =>
        cases hres : resolve nm with
        | none => rw [hres] at h; cases h; rfl
        | some rr => rw [hres] at h; cases h; rfl
      | some td => cases h; rfl

theorem identStage_src (pid : Int) (fn : Option FnNode) (body : Option BodyNode)
    (resolve : Resolver) (ident : Option String) (p q : PrimaryExpression)
    (h : identStage pid fn body resolve ident p = Except.ok q) : q.src = p.src := by
  cases ident with
  | none =>
    simp only [identStage, pure, Except.pure] at h
    cases h
    rfl
  | some nm =>
    simp only [identStage] at h
    have hs := identTail_src body resolve nm _ q h
    rw [hs]
    rcases fn with _ | (ps | (_ | ps2) | _) <;> rfl

theorem decRec_eq_ite {c : Prop} {α : Sort u} (i : Decidable c) (t e : α) :
    (@Decidable.rec c (fun _ => α) (fun h => e) (fun h => t) i : α) = @ite α c i t e := by
  cases i <;> rfl

theorem literalStage_src (txt : String) (lit : Option LiteralContext)
    (e : Option ExpNode) (p q : PrimaryExpression)
    (h : literalStage txt lit e p = Except.ok q) : q.src = p.src := by
  rcases lit with _ | ⟨bo, st, nu, he⟩
  all_goals try rcases bo with _ | btext
  all_goals try rcases st with _ | stext
  all_goals try rcases nu with _ | ntext
  all_goals try rcases he with _ | htext
  all_goals rcases e with _ | en
  all_goals rcases p with ⟨pid0, pnt0, pk0, pv0, phv0, psrc0, pnm0, ptd0, prd0, pip0, pat0⟩
  all_goals rcases ptd0 with _ | td
  all_goals
    simp only [literalStage, bind, Except.bind, pure, Except.pure, throw, throwThe,
      MonadExceptOf.throw] at h
  all_goals rcases Classical.em (txt = "msg") with hm | hm
  all_goals try simp only [if_pos hm] at h
  all_goals try simp only [if_neg hm] at h
  all_goals try simp only [] at h
  all_goals repeat split at h
  all_goals try ((try beta_reduce at h); simp only [decRec_eq_ite] at h)
  all_goals repeat split at h
  all_goals cases h
  all_goals rfl

theorem stages_src (pid : Int) (fn : Option FnNode) (body : Option BodyNode)
    (r : Resolver) (ident : Option String) (txt : String)
    (lit : Option LiteralContext) (e : Option ExpNode) (p q : PrimaryExpression)
    (h : (do
        let p5 ← identStage pid fn body r ident p
        literalStage txt lit e p5) = Except.ok q) : q.src = p.src := by
  cases hid : identStage pid fn body r ident p with
  | error err =>
    simp only [bind, Except.bind, hid] at h
    cases h
  | ok p5 =>
    simp only [bind, Except.bind, hid] at h
    exact (literalStage_src txt lit e p5 q h).trans
      (identStage_src pid fn body r ident p p5 hid)

theorem okSrcOk_of_run (pid : Int) (fn : Option FnNode) (body : Option BodyNode)
    (r : Resolver) (ident : Option String) (txt : String)
    (lit : Option LiteralContext) (e : Option ExpNode) (p : PrimaryExpression)
    (hp : srcOk p.src) :
    okSrcOk (do
      let p5 ← identStage pid fn body r ident p
      literalStage txt lit e p5) := by
  cases hh : (do
      let p5 ← identStage pid fn body r ident p
      literalStage txt lit e p5 : Except GoPanic PrimaryExpression) with
  | error err => trivial
  | ok q =>
    show srcOk q.src
    rw [stages_src pid fn body r ident txt lit e p q hh]
    exact hp

theorem parse_srcOk (pid srcId : Int) (u : Option TypeDescription)
    (fn : Option FnNode) (body : Option BodyNode) (vd : Option Int)
    (e : Option ExpNode) (r : Resolver) (ctx : PrimaryExpressionContext) :
    okSrcOk (PrimaryExpression.Parse pid srcId u fn body vd e r ctx) := by
  unfold PrimaryExpression.Parse
  cases e with
  | some en =>
    simp only [bind, Except.bind, pure, Except.pure]
    apply okSrcOk_of_run
    rw [argsStage_src, magicStage_src]
    exact srcOk_mkSrcNode _ _ _
  | none =>
    cases vd with
    | some vid =>
      simp only [bind, Except.bind, pure, Except.pure]
      apply okSrcOk_of_run
      rw [argsStage_src, magicStage_src]
      exact srcOk_mkSrcNode _ _ _
    | none =>
      cases body with
      | some b =>
        simp only [bind, Except.bind, pure, Except.pure]
        apply okSrcOk_of_run
        rw [argsStage_src, magicStage_src]
        exact srcOk_mkSrcNode _ _ _
      | none =>
        simp only [bind, Except.bind, throw, throwThe, MonadExceptOf.throw]
        trivial

/-- C7: every node created by the translators satisfies the span invariant
`length = end - start + 1`.  The first conjunct covers every node
`PrimaryExpression.Parse` returns; the second covers the tree
`TypeName.Parse` returns — the node itself, its path node, and the mapping
key/value sub-nodes recursively. -/
theorem claim_C7 :
    (∀ (pid srcId : Int) (u : Option TypeDescription) (fn : Option FnNode)
        (body : Option BodyNode) (vd : Option Int) (e : Option ExpNode)
        (r : Resolver) (ctx : PrimaryExpressionContext),
      okSrcOk (PrimaryExpression.Parse pid srcId u fn body vd e r ctx)) ∧
    (∀ (n : Normalizer) (r : Resolver) (c pnid : Int) (sp : CtxSpan)
        (children : List TypeNameChild) (out : TypeNameNode × Int),
      TypeNameParse n r c pnid sp children = Except.ok out → out.1.allSrcOk) :=
  ⟨fun pid srcId u fn body vd e r ctx => parse_srcOk pid srcId u fn body vd e r ctx,
   fun n r c pnid sp children out h => TypeNameParse_allSrcOk n r c pnid sp children out h⟩

/-- Witness for C7 at concrete inputs: a number-literal primary expression
parsed under a variable-declaration parent, and a type name translated from
an empty child list. -/
theorem claim_C7_witness :
    okSrcOk (PrimaryExpression.Parse 1 2 none none none (some 7) none res0
      (numberCtx "42" sp0)) ∧
    (TypeNameNode.mk
      { id := 10, nodeType := NodeType.UNSPECIFIED, src := mkSrcNode 11 sp0 3,
        name := "", typeDescription := none, referencedDeclaration := 0,
        stateMutability := Mutability.UNSPECIFIED, pathNode := none }
      none none, (12 : Int)).1.allSrcOk :=
  ⟨claim_C7.1 1 2 none none none (some 7) none res0 (numberCtx "42" sp0),
   claim_C7.2 norm0 res0 10 3 sp0 []
     (TypeNameNode.mk
       { id := 10, nodeType := NodeType.UNSPECIFIED, src := mkSrcNode 11 sp0 3,
         name := "", typeDescription := none, referencedDeclaration := 0,
         stateMutability := Mutability.UNSPECIFIED, pathNode := none }
       none none, (12 : Int)) rfl⟩
